import Mathlib

/-!
Shallow embedding of the Relax dataflow pattern matcher
(`src/relax/ir/dataflow_matcher.cc`) and proofs about the specified
properties of `DFPatternMatcher`.

The expression and pattern models mirror the tagged IR variants used by the
matcher.  Object identity (`same_as`) and the `StructuralEqual` oracle are
both modelled by structural equality on the embedded trees; every expression
the matcher compares originates from the one input tree, so distinct C++
objects that this conflates are structurally equal trees.  External
collaborators (the checked-type accessor, the `shape()` accessor, the op
attribute registry / reflection machinery behind `AttrPattern`, and the
arithmetic analyzer) are supplied as oracle functions in an environment
record, matching the specification's description of them as pure
collaborators.
-/

namespace RelaxDF

/-- Symbolic dimensions appearing in `ShapeExpr` values and shape patterns
(`PrimExpr` in the source). -/
inductive PrimExpr where
  | pvar (name : String)
  | pint (v : Int)
deriving DecidableEq

/-- Checked types, as far as the matcher inspects them: `DynTensorType`
carries ndim and dtype; every other type is opaque (`tyOther`). -/
inductive Ty where
  | dynTensor (ndim : Int) (dtype : String)
  | tyOther (tag : Nat)
deriving DecidableEq

/-- Result of the `shape()`/`shape_` accessor of an expression: a
`ShapeExpr` with symbolic values, a `RuntimeDepShape`, or no shape. -/
inductive ShapeAnn where
  | shapeOf (vals : List PrimExpr)
  | runtimeDep
  | noShape
deriving DecidableEq

/-- Expressions (`Expr` / `ExprNode` variants relevant to the matcher).
`constant` carries an opaque tag since the matcher never compares constant
payloads. `DataflowVar` inherits from `Var` in the source; here the two are
separate constructors and `isVarNode` below models the subtyping. -/
inductive Expr where
  | constant (tag : Nat)
  | var (name : String)
  | dataflowVar (name : String)
  | globalVar (name : String)
  | externFunc (sym : String)
  | opNode (name : String)
  | tuple (fields : List Expr)
  | tupleGetItem (t : Expr) (index : Int)
  | call (op : Expr) (args : List Expr)
  | func (params : List Expr) (body : Expr)
  | ifE (c : Expr) (t : Expr) (e : Expr)
  | shapeExpr (vals : List PrimExpr)

mutual
/-- Structural equality on expressions, modelling both `Expr::same_as`
(pointer identity within the one input tree) and the `StructuralEqual`
oracle. -/
def Expr.beq : Expr → Expr → Bool
  | .constant a, .constant b => a == b
  | .var a, .var b => a == b
  | .dataflowVar a, .dataflowVar b => a == b
  | .globalVar a, .globalVar b => a == b
  | .externFunc a, .externFunc b => a == b
  | .opNode a, .opNode b => a == b
  | .tuple xs, .tuple ys => Expr.beqL xs ys
  | .tupleGetItem t1 i1, .tupleGetItem t2 i2 => Expr.beq t1 t2 && i1 == i2
  | .call o1 a1, .call o2 a2 => Expr.beq o1 o2 && Expr.beqL a1 a2
  | .func p1 b1, .func p2 b2 => Expr.beqL p1 p2 && Expr.beq b1 b2
  | .ifE c1 t1 e1, .ifE c2 t2 e2 => Expr.beq c1 c2 && Expr.beq t1 t2 && Expr.beq e1 e2
  | .shapeExpr v1, .shapeExpr v2 => v1 == v2
  | _, _ => false
/-- Element-wise `Expr.beq` on lists. -/
def Expr.beqL : List Expr → List Expr → Bool
  | [], [] => true
  | x :: xs, y :: ys => Expr.beq x y && Expr.beqL xs ys
  | _, _ => false
end

theorem Expr.beq_iff : ∀ a b : Expr, Expr.beq a b = true ↔ a = b := by
  refine Expr.beq.induct
    (fun a b => Expr.beq a b = true ↔ a = b)
    (fun l1 l2 => Expr.beqL l1 l2 = true ↔ l1 = l2)
    ?_ ?_ ?_ ?_ ?_ ?_ ?_ ?_ ?_ ?_ ?_ ?_ ?catchE ?_ ?_ ?catchL
  case catchE =>
    intro t x h1 h2 h3 h4 h5 h6 h7 h8 h9 h10 h11 h12
    cases t <;> cases x <;>
      first
        | exact Iff.intro (fun h => Bool.noConfusion h) (fun h => Expr.noConfusion h)
        | exact (h1 _ _ rfl rfl).elim
        | exact (h2 _ _ rfl rfl).elim
        | exact (h3 _ _ rfl rfl).elim
        | exact (h4 _ _ rfl rfl).elim
        | exact (h5 _ _ rfl rfl).elim
        | exact (h6 _ _ rfl rfl).elim
        | exact (h7 _ _ rfl rfl).elim
        | exact (h8 _ _ _ _ rfl rfl).elim
        | exact (h9 _ _ _ _ rfl rfl).elim
        | exact (h10 _ _ _ _ rfl rfl).elim
        | exact (h11 _ _ _ _ _ _ rfl rfl).elim
        | exact (h12 _ _ rfl rfl).elim
  case catchL =>
    intro t x hn1 hn2
    cases t <;> cases x <;>
      first
        | exact Iff.intro (fun h => Bool.noConfusion h) (fun h => List.noConfusion h)
        | exact (hn1 rfl rfl).elim
        | exact (hn2 _ _ _ _ rfl rfl).elim
  · intro a b
    rw [show Expr.beq (.constant a) (.constant b) = (a == b) from rfl]
    simp
  · intro a b
    rw [show Expr.beq (.var a) (.var b) = (a == b) from rfl]
    simp
  · intro a b
    rw [show Expr.beq (.dataflowVar a) (.dataflowVar b) = (a == b) from rfl]
    simp
  · intro a b
    rw [show Expr.beq (.globalVar a) (.globalVar b) = (a == b) from rfl]
    simp
  · intro a b
    rw [show Expr.beq (.externFunc a) (.externFunc b) = (a == b) from rfl]
    simp
  · intro a b
    rw [show Expr.beq (.opNode a) (.opNode b) = (a == b) from rfl]
    simp
  · intro xs ys ih
    rw [show Expr.beq (.tuple xs) (.tuple ys) = Expr.beqL xs ys from rfl]
    simp [ih]
  · intro t1 i1 t2 i2 ih
    rw [show Expr.beq (.tupleGetItem t1 i1) (.tupleGetItem t2 i2) =
      (Expr.beq t1 t2 && i1 == i2) from rfl]
    simp [ih]
  · intro o1 a1 o2 a2 ih1 ih2
    rw [show Expr.beq (.call o1 a1) (.call o2 a2) = (Expr.beq o1 o2 && Expr.beqL a1 a2) from rfl]
    simp [ih1, ih2]
  · intro p1 b1 p2 b2 ih1 ih2
    rw [show Expr.beq (.func p1 b1) (.func p2 b2) = (Expr.beqL p1 p2 && Expr.beq b1 b2) from rfl]
    simp [ih1, ih2]
  · intro c1 t1 e1 c2 t2 e2 ih1 ih2 ih3
    rw [show Expr.beq (.ifE c1 t1 e1) (.ifE c2 t2 e2) =
      (Expr.beq c1 c2 && Expr.beq t1 t2 && Expr.beq e1 e2) from rfl]
    simp [ih1, ih2, ih3, and_assoc]
  · intro v1 v2
    rw [show Expr.beq (.shapeExpr v1) (.shapeExpr v2) = (v1 == v2) from rfl]
    simp
  · simp [show Expr.beqL [] [] = true from rfl]
  · intro x xs y ys ih1 ih2
    rw [show Expr.beqL (x :: xs) (y :: ys) = (Expr.beq x y && Expr.beqL xs ys) from rfl]
    simp [ih1, ih2]

instance : DecidableEq Expr := fun a b => decidable_of_iff _ (Expr.beq_iff a b)

/-- Patterns (`DFPattern` variants understood by the matcher).  `attrPat`
carries an opaque tag for its attribute dictionary, which the matcher only
passes to the external registry/reflection machinery (an oracle in `Env`).
`args`/`params`/`fields` are `Option`s: `none` models an undefined TVM
`Array`, leaving the arity unconstrained. -/
inductive Pattern where
  | wildcard
  | exprPat (e : Expr)
  | varPat (hint : String)
  | dataflowVarPat (hint : String)
  | globalVarPat (hint : String)
  | externFuncPat (sym : String)
  | constantPat
  | callPat (op : Pattern) (args : Option (List Pattern))
  | funcPat (params : Option (List Pattern)) (body : Pattern)
  | ifPat (c : Pattern) (t : Pattern) (e : Pattern)
  | tuplePat (fields : Option (List Pattern))
  | tupleGetItemPat (tuple : Pattern) (index : Int)
  | attrPat (inner : Pattern) (attrs : Nat)
  | typePat (inner : Pattern) (ty : Ty)
  | shapePat (inner : Pattern) (shape : List PrimExpr)
  | dataTypePat (inner : Pattern) (dtype : String)
  | primArrPat (arr : List PrimExpr)
  | runtimeDepShapePat
  | orPat (l r : Pattern)
  | andPat (l r : Pattern)
  | notPat (reject : Pattern)
  | dominatorPat (child : Pattern) (path : Pattern) (parent : Pattern)

mutual
/-- Structural equality on patterns; models the pattern identity used as
the memo key (each distinct pattern node of the query tree is one key). -/
def Pattern.beq : Pattern → Pattern → Bool
  | .wildcard, .wildcard => true
  | .exprPat a, .exprPat b => a == b
  | .varPat a, .varPat b => a == b
  | .dataflowVarPat a, .dataflowVarPat b => a == b
  | .globalVarPat a, .globalVarPat b => a == b
  | .externFuncPat a, .externFuncPat b => a == b
  | .constantPat, .constantPat => true
  | .callPat o1 a1, .callPat o2 a2 => Pattern.beq o1 o2 && Pattern.beqOL a1 a2
  | .funcPat p1 b1, .funcPat p2 b2 => Pattern.beqOL p1 p2 && Pattern.beq b1 b2
  | .ifPat c1 t1 e1, .ifPat c2 t2 e2 =>
      Pattern.beq c1 c2 && Pattern.beq t1 t2 && Pattern.beq e1 e2
  | .tuplePat f1, .tuplePat f2 => Pattern.beqOL f1 f2
  | .tupleGetItemPat t1 i1, .tupleGetItemPat t2 i2 => Pattern.beq t1 t2 && i1 == i2
  | .attrPat i1 a1, .attrPat i2 a2 => Pattern.beq i1 i2 && a1 == a2
  | .typePat i1 t1, .typePat i2 t2 => Pattern.beq i1 i2 && decide (t1 = t2)
  | .shapePat i1 s1, .shapePat i2 s2 => Pattern.beq i1 i2 && decide (s1 = s2)
  | .dataTypePat i1 d1, .dataTypePat i2 d2 => Pattern.beq i1 i2 && d1 == d2
  | .primArrPat a1, .primArrPat a2 => decide (a1 = a2)
  | .runtimeDepShapePat, .runtimeDepShapePat => true
  | .orPat l1 r1, .orPat l2 r2 => Pattern.beq l1 l2 && Pattern.beq r1 r2
  | .andPat l1 r1, .andPat l2 r2 => Pattern.beq l1 l2 && Pattern.beq r1 r2
  | .notPat a, .notPat b => Pattern.beq a b
  | .dominatorPat c1 p1 q1, .dominatorPat c2 p2 q2 =>
      Pattern.beq c1 c2 && Pattern.beq p1 p2 && Pattern.beq q1 q2
  | _, _ => false
/-- `Pattern.beq` lifted to optional argument lists. -/
def Pattern.beqOL : Option (List Pattern) → Option (List Pattern) → Bool
  | none, none => true
  | some l1, some l2 => Pattern.beqL l1 l2
  | _, _ => false
/-- Element-wise `Pattern.beq` on lists. -/
def Pattern.beqL : List Pattern → List Pattern → Bool
  | [], [] => true
  | x :: xs, y :: ys => Pattern.beq x y && Pattern.beqL xs ys
  | _, _ => false
end

set_option maxHeartbeats 2000000 in
theorem Pattern.beq_iff_eq : ∀ a b : Pattern, Pattern.beq a b = true ↔ a = b := by
  refine Pattern.beq.induct
    (fun a b => Pattern.beq a b = true ↔ a = b)
    (fun o1 o2 => Pattern.beqOL o1 o2 = true ↔ o1 = o2)
    (fun l1 l2 => Pattern.beqL l1 l2 = true ↔ l1 = l2)
    ?_ ?_ ?_ ?_ ?_ ?_ ?_ ?_ ?_ ?_ ?_ ?_ ?_ ?_ ?_ ?_ ?_ ?_ ?_ ?_ ?_ ?_ ?catchP
    ?_ ?_ ?catchOL ?_ ?_ ?catchL
  case catchP =>
    intro t x h1 h2 h3 h4 h5 h6 h7 h8 h9 h10 h11 h12 h13 h14 h15 h16 h17 h18 h19 h20 h21 h22
    cases t <;> cases x <;>
      first
        | exact Iff.intro (fun h => Bool.noConfusion h) (fun h => Pattern.noConfusion h)
        | exact (h1 rfl rfl).elim
        | exact (h2 _ _ rfl rfl).elim
        | exact (h3 _ _ rfl rfl).elim
        | exact (h4 _ _ rfl rfl).elim
        | exact (h5 _ _ rfl rfl).elim
        | exact (h6 _ _ rfl rfl).elim
        | exact (h7 rfl rfl).elim
        | exact (h8 _ _ _ _ rfl rfl).elim
        | exact (h9 _ _ _ _ rfl rfl).elim
        | exact (h10 _ _ _ _ _ _ rfl rfl).elim
        | exact (h11 _ _ rfl rfl).elim
        | exact (h12 _ _ _ _ rfl rfl).elim
        | exact (h13 _ _ _ _ rfl rfl).elim
        | exact (h14 _ _ _ _ rfl rfl).elim
        | exact (h15 _ _ _ _ rfl rfl).elim
        | exact (h16 _ _ _ _ rfl rfl).elim
        | exact (h17 _ _ rfl rfl).elim
        | exact (h18 rfl rfl).elim
        | exact (h19 _ _ _ _ rfl rfl).elim
        | exact (h20 _ _ _ _ rfl rfl).elim
        | exact (h21 _ _ rfl rfl).elim
        | exact (h22 _ _ _ _ _ _ rfl rfl).elim
  case catchOL =>
    intro t x hn1 hn2
    cases t <;> cases x <;>
      first
        | exact Iff.intro (fun h => Bool.noConfusion h) (fun h => Option.noConfusion h)
        | exact (hn1 rfl rfl).elim
        | exact (hn2 _ _ rfl rfl).elim
  case catchL =>
    intro t x hn1 hn2
    cases t <;> cases x <;>
      first
        | exact Iff.intro (fun h => Bool.noConfusion h) (fun h => List.noConfusion h)
        | exact (hn1 rfl rfl).elim
        | exact (hn2 _ _ _ _ rfl rfl).elim
  · simp [show Pattern.beq .wildcard .wildcard = true from rfl]
  · intro a b
    rw [show Pattern.beq (.exprPat a) (.exprPat b) = (a == b) from rfl]
    simp
  · intro a b
    rw [show Pattern.beq (.varPat a) (.varPat b) = (a == b) from rfl]
    simp
  · intro a b
    rw [show Pattern.beq (.dataflowVarPat a) (.dataflowVarPat b) = (a == b) from rfl]
    simp
  · intro a b
    rw [show Pattern.beq (.globalVarPat a) (.globalVarPat b) = (a == b) from rfl]
    simp
  · intro a b
    rw [show Pattern.beq (.externFuncPat a) (.externFuncPat b) = (a == b) from rfl]
    simp
  · simp [show Pattern.beq .constantPat .constantPat = true from rfl]
  · intro o1 a1 o2 a2 ih1 ih2
    rw [show Pattern.beq (.callPat o1 a1) (.callPat o2 a2) =
      (Pattern.beq o1 o2 && Pattern.beqOL a1 a2) from rfl]
    simp [ih1, ih2]
  · intro p1 b1 p2 b2 ih1 ih2
    rw [show Pattern.beq (.funcPat p1 b1) (.funcPat p2 b2) =
      (Pattern.beqOL p1 p2 && Pattern.beq b1 b2) from rfl]
    simp [ih1, ih2]
  · intro c1 t1 e1 c2 t2 e2 ih1 ih2 ih3
    rw [show Pattern.beq (.ifPat c1 t1 e1) (.ifPat c2 t2 e2) =
      (Pattern.beq c1 c2 && Pattern.beq t1 t2 && Pattern.beq e1 e2) from rfl]
    simp [ih1, ih2, ih3, and_assoc]
  · intro f1 f2 ih
    rw [show Pattern.beq (.tuplePat f1) (.tuplePat f2) = Pattern.beqOL f1 f2 from rfl]
    simp [ih]
  · intro t1 i1 t2 i2 ih
    rw [show Pattern.beq (.tupleGetItemPat t1 i1) (.tupleGetItemPat t2 i2) =
      (Pattern.beq t1 t2 && i1 == i2) from rfl]
    simp [ih]
  · intro i1 a1 i2 a2 ih
    rw [show Pattern.beq (.attrPat i1 a1) (.attrPat i2 a2) =
      (Pattern.beq i1 i2 && a1 == a2) from rfl]
    simp [ih]
  · intro i1 t1 i2 t2 ih
    rw [show Pattern.beq (.typePat i1 t1) (.typePat i2 t2) =
      (Pattern.beq i1 i2 && decide (t1 = t2)) from rfl]
    simp [ih]
  · intro i1 s1 i2 s2 ih
    rw [show Pattern.beq (.shapePat i1 s1) (.shapePat i2 s2) =
      (Pattern.beq i1 i2 && decide (s1 = s2)) from rfl]
    simp [ih]
  · intro i1 d1 i2 d2 ih
    rw [show Pattern.beq (.dataTypePat i1 d1) (.dataTypePat i2 d2) =
      (Pattern.beq i1 i2 && d1 == d2) from rfl]
    simp [ih]
  · intro a1 a2
    rw [show Pattern.beq (.primArrPat a1) (.primArrPat a2) = decide (a1 = a2) from rfl]
    simp
  · simp [show Pattern.beq .runtimeDepShapePat .runtimeDepShapePat = true from rfl]
  · intro l1 r1 l2 r2 ih1 ih2
    rw [show Pattern.beq (.orPat l1 r1) (.orPat l2 r2) =
      (Pattern.beq l1 l2 && Pattern.beq r1 r2) from rfl]
    simp [ih1, ih2]
  · intro l1 r1 l2 r2 ih1 ih2
    rw [show Pattern.beq (.andPat l1 r1) (.andPat l2 r2) =
      (Pattern.beq l1 l2 && Pattern.beq r1 r2) from rfl]
    simp [ih1, ih2]
  · intro a b ih
    rw [show Pattern.beq (.notPat a) (.notPat b) = Pattern.beq a b from rfl]
    simp [ih]
  · intro c1 p1 q1 c2 p2 q2 ih1 ih2 ih3
    rw [show Pattern.beq (.dominatorPat c1 p1 q1) (.dominatorPat c2 p2 q2) =
      (Pattern.beq c1 c2 && Pattern.beq p1 p2 && Pattern.beq q1 q2) from rfl]
    simp [ih1, ih2, ih3, and_assoc]
  · simp [show Pattern.beqOL none none = true from rfl]
  · intro l1 l2 ih
    rw [show Pattern.beqOL (some l1) (some l2) = Pattern.beqL l1 l2 from rfl]
    simp [ih]
  · simp [show Pattern.beqL [] [] = true from rfl]
  · intro x xs y ys ih1 ih2
    rw [show Pattern.beqL (x :: xs) (y :: ys) = (Pattern.beq x y && Pattern.beqL xs ys) from rfl]
    simp [ih1, ih2]

instance : DecidableEq Pattern := fun a b => decidable_of_iff _ (Pattern.beq_iff_eq a b)

/-- Node of the derived expression graph (`expr_graph_.node_map_` entries):
the node's direct dataflow inputs and its dominator-tree children. -/
structure GraphNode where
  inputs : List Expr
  domChildren : List Expr
deriving DecidableEq

/-- Matcher state: `memo_` (pattern → array of matched expressions),
`matched_nodes_` (the rollback stack, in insertion order) and the
`memoize_` flag.  `memo_` is an association list with unique keys, the
model of the source's hash map keyed by pattern identity. -/
structure MState where
  memo : List (Pattern × List Expr)
  matched : List Pattern
  memoize : Bool
deriving DecidableEq

/-- Fresh matcher state.  `Match` clears `memo_` and `matched_nodes_` on
entry (lines 551-556).  Modelled from the spec: the initial value of the
`memoize_` member is set in `dataflow_matcher_impl.h`, which is not among
the sources; the spec describes `memoize` as a flag gating memo use that is
only "suspended during dominator path traversal", so a fresh matcher has
`memoize = true`. -/
def MState.init : MState := ⟨[], [], true⟩

/-- Environment: the autojump flag and `var2val` map of the matcher, the
derived expression graph, and the pure external collaborators (the
`shape()` accessor, the `checked_type()` accessor, the op-attribute
registry / reflection machinery behind `AttrPattern`, and the arithmetic
analyzer deciding `is_one(Simplify(lhs == rhs))` for symbolic dims). -/
structure Env where
  autojump : Bool
  var2val : Option (List (Expr × Expr))
  graph : List (Expr × GraphNode)
  shapeOf : Expr → ShapeAnn
  checkedTypeOf : Expr → Ty
  attrsOk : Nat → Expr → Bool
  primEqOne : PrimExpr → PrimExpr → Bool

/-- Fatal, abort-class failures: `ICHECK` violations and out-of-range
TVM `Array` / `std::unordered_map::at` accesses. -/
inductive MErr where
  | noVar2Val
  | memoMulti
  | graphMiss
  | arrayOOB
deriving DecidableEq

/-- Outcome of a matcher step: a boolean with the resulting state, a fatal
abort, or fuel exhaustion (the model's budget for the non-structural
recursion through associative rewrites and the expression graph). -/
inductive Res where
  | ok (b : Bool) (s : MState)
  | fatal (err : MErr)
  | fuelOut
deriving DecidableEq

/-- Sequencing: continue on `ok`, propagate aborts and fuel exhaustion. -/
def Res.andThen : Res → (Bool → MState → Res) → Res
  | .ok b s, k => k b s
  | .fatal e, _ => .fatal e
  | .fuelOut, _ => .fuelOut

/-- `expr.as<VarNode>()` succeeds: `DataflowVar` inherits from `Var`. -/
def isVarNode : Expr → Bool
  | .var _ => true
  | .dataflowVar _ => true
  | _ => false

/-- `expr->IsInstance<DataflowVarNode>()`. -/
def isDataflowVarNode : Expr → Bool
  | .dataflowVar _ => true
  | _ => false

/-- `var_node->name_hint()` of a variable node. -/
def varName : Expr → String
  | .var n => n
  | .dataflowVar n => n
  | _ => ""

/-- Association-list find used for `var2val.Get` and the graph map. -/
def v2vFind : List (Expr × Expr) → Expr → Option Expr
  | [], _ => none
  | (k, v) :: rest, e => if k = e then some v else v2vFind rest e

/-- `expr_graph_.node_map_.at(expr)` lookup (missing key throws). -/
def graphFind : List (Expr × GraphNode) → Expr → Option GraphNode
  | [], _ => none
  | (k, v) :: rest, e => if k = e then some v else graphFind rest e

/-- `TryGetValOfVar` (lines 558-572): with autojump off return the
expression unchanged; otherwise, for a variable, require `var2val` to be
defined (ICHECK) and substitute its mapped value when present. -/
def tryGetValOfVar (env : Env) (e : Expr) : Except MErr Expr :=
  if !env.autojump then .ok e
  else if isVarNode e then
    match env.var2val with
    | none => .error .noVar2Val
    | some m =>
      match v2vFind m e with
      | some v => .ok v
      | none => .ok e
  else .ok e

/-- `memo_.count(pattern)` / `memo_[pattern]` read access. -/
def memoFind : List (Pattern × List Expr) → Pattern → Option (List Expr)
  | [], _ => none
  | (k, v) :: rest, p => if k = p then some v else memoFind rest p

/-- `memo_[pattern].push_back(expr)`: append to the entry, creating it if
absent (new keys go to the back, keys stay unique). -/
def memoAdd : List (Pattern × List Expr) → Pattern → Expr → List (Pattern × List Expr)
  | [], p, e => [(p, [e])]
  | (k, v) :: rest, p, e =>
    if k = p then (k, v ++ [e]) :: rest else (k, v) :: memoAdd rest p e

/-- `memo_.erase(key)`. -/
def memoErase : List (Pattern × List Expr) → Pattern → List (Pattern × List Expr)
  | [], _ => []
  | (k, v) :: rest, p => if k = p then memoErase rest p else (k, v) :: memoErase rest p

/-- `DFPatternMatcher::ClearMap` (lines 574-579): erase from the memo every
pattern recorded at or past the watermark, then truncate the matched-nodes
stack to the watermark. -/
def clearMap (watermark : Nat) (s : MState) : MState :=
  { s with
    memo := (s.matched.drop watermark).foldl (fun m k => memoErase m k) s.memo
    matched := s.matched.take watermark }

/-- The success bookkeeping of `VisitDFPattern` (lines 589-591):
`memo_[pattern].push_back(expr); matched_nodes_.push_back(pattern)`. -/
def pushMatch (p : Pattern) (e : Expr) (s : MState) : MState :=
  { s with memo := memoAdd s.memo p e, matched := s.matched ++ [p] }

/-- `get_op_node` on the op sub-pattern of a `CallPattern`: the name of the
`OpNode` inside an `ExprPattern`, if that is what the op pattern is. -/
def opPatName : Pattern → Option String
  | .exprPat (.opNode n) => some n
  | _ => none

/-- `is_expr_op`: the expression is a call whose op is the named `Op`. -/
def isExprOp : Expr → String → Bool
  | .call (.opNode n) _, ty => n == ty
  | _, _ => false

/-- `reverse` on a (defined) pattern-argument array (lines 722-728). -/
def reverseArgs : Option (List Pattern) → Option (List Pattern)
  | none => none
  | some l => some l.reverse

/-- `shape_equal` (lines 905-910): equal lengths and every position's
equation `lhs[i] == rhs[i]` simplified to one by the analyzer oracle. -/
def shapeEqual (env : Env) : List PrimExpr → List PrimExpr → Bool
  | [], [] => true
  | a :: as, b :: bs => env.primEqOne a b && shapeEqual env as bs
  | _, _ => false

/-- TVM `Array` element access; out of range (or an undefined array) is an
abort. -/
def exGet : List Expr → Nat → Except MErr Expr
  | [], _ => .error .arrayOOB
  | x :: _, 0 => .ok x
  | _ :: xs, n+1 => exGet xs n

/-- Pattern-array element access through the optional array. -/
def patGet : Option (List Pattern) → Nat → Except MErr Pattern
  | none, _ => .error .arrayOOB
  | some [], _ => .error .arrayOOB
  | some (x :: _), 0 => .ok x
  | some (_ :: xs), n+1 => patGet (some xs) n

/-- `is_expr_op(call_node->args[0], ty) || is_expr_op(call_node->args[1], ty)`
with the source's left-to-right array accesses. -/
def anyArgIsOp (argsE : List Expr) (ty : String) : Except MErr Bool := do
  let a0 ← exGet argsE 0
  if isExprOp a0 ty then return true
  else
    let a1 ← exGet argsE 1
    return isExprOp a1 ty


/-- Guard and construction of the divide/multiply associative rewrites
(lines 801-821): when the call pattern's op is `divide`, its first argument
is a `multiply` call pattern, the expression is a `multiply` call and one
of the expression's first two arguments is a `divide` call, produce the two
rewritten multiply patterns tried by the source's `arg_id` loop (in order),
with the source's TVM `Array` accesses (aborting out of range). -/
def divRewrites (opP : Pattern) (argsP : Option (List Pattern)) (e2 : Expr)
    (argsE : List Expr) : Except MErr (Option (Pattern × Pattern)) :=
  if opPatName opP == some "divide" then do
    let a0 ← patGet argsP 0
    match a0 with
    | .callPat innerOp innerArgs =>
      if opPatName innerOp == some "multiply" && isExprOp e2 "multiply" then do
        let hasDiv ← anyArgIsOp argsE "divide"
        if hasDiv then do
          let ia0 ← patGet innerArgs 0
          let ia1 ← patGet innerArgs 1
          let pa1 ← patGet argsP 1
          let mul0 := Pattern.callPat innerOp (some [ia1, Pattern.callPat opP (some [ia0, pa1])])
          let mul1 := Pattern.callPat innerOp (some [ia0, Pattern.callPat opP (some [ia1, pa1])])
          return some (mul0, mul1)
        else return none
      else return none
    | _ => return none
  else return none

/-- One iteration of the multiply/divide rewrite loop (lines 822-835): if
this call-pattern argument is a `divide` call pattern, the expression is a
`divide` call and one of its first two arguments is a `multiply` call,
produce the rewritten divide pattern; `none` lets the loop continue. -/
def mulRewriteArg (opP : Pattern) (argsP : Option (List Pattern)) (e2 : Expr)
    (argsE : List Expr) (aPat : Pattern) (otherIdx : Nat) : Except MErr (Option Pattern) :=
  match aPat with
  | .callPat dOp dArgs =>
    if opPatName dOp == some "divide" && isExprOp e2 "divide" then do
      let hasMul ← anyArgIsOp argsE "multiply"
      if hasMul then do
        let da0 ← patGet dArgs 0
        let da1 ← patGet dArgs 1
        let pOther ← patGet argsP otherIdx
        return some (Pattern.callPat dOp
          (some [Pattern.callPat opP (some [da0, pOther]), da1]))
      else return none
    else return none
  | _ => return none

/-- The multiply/divide rewrite loop over `arg_id` in \{0, 1\}. -/
def mulRewrite (opP : Pattern) (argsP : Option (List Pattern)) (e2 : Expr)
    (argsE : List Expr) : Except MErr (Option Pattern) := do
  let a0 ← patGet argsP 0
  match ← mulRewriteArg opP argsP e2 argsE a0 1 with
  | some d => return some d
  | none => do
    let a1 ← patGet argsP 1
    mulRewriteArg opP argsP e2 argsE a1 0

/-- The matcher's mutually recursive routines as one fuel-indexed worker:
`visit` is `DFPatternMatcher::VisitDFPattern` (dispatch inlined),
`argsLoop` the sequential child-visiting loop shared by `match_args`,
tuple fields and function params, `pathOf`/`pathInputs` are
`DFPatternMatcher::MatchesPath`, and `domStack`/`domKids` the iterative
DFS of `DFPatternMatcher::DominatesParent`. -/
inductive Task where
  | visit (p : Pattern) (e : Expr)
  | argsLoop (ps : List Pattern) (es : List Expr)
  | pathOf (path : Pattern) (parent : Pattern) (e : Expr)
  | pathInputs (path : Pattern) (parent : Pattern) (skip : Option Expr) (nodes : List Expr)
  | domStack (parent : Pattern) (stack : List Expr) (visited : List Expr)
  | domKids (parent : Pattern) (kids : List Expr) (stack : List Expr) (visited : List Expr)

/-- One step of the matcher.  `run env (f+1) (.visit p e) s` is
`VisitDFPattern(p, e)` in state `s`: auto-jump the expression
(line 582), answer memo hits by object identity with the stored expression
(lines 583-585, aborting like `ICHECK_EQ(memo_[pattern].size(), 1)` on a
multi-entry), otherwise dispatch on the pattern variant and either commit
(`memo_[pattern].push_back; matched_nodes_.push_back`) or roll back to the
watermark (lines 586-596).  The dispatch arms mirror the
`VisitDFPattern_` overloads; handlers that call `TryGetValOfVar`
themselves in the source do so here as well (on the already-jumped
expression), and the `Var`/`DataflowVar`/`GlobalVar`/`Constant`/`Shape`/
`DataType`/`Wildcard`/`RuntimeDepShape` handlers do not.  The
`DominatorPattern`, `If` handlers and the path/dominator traversals follow
their (sole) implementation in the first half of the file. -/
def run (env : Env) : Nat → Task → MState → Res
  | 0, _, _ => .fuelOut
  | f+1, .visit p e0, s =>
    match tryGetValOfVar env e0 with
    | .error er => .fatal er
    | .ok e =>
      if s.memoize && (memoFind s.memo p).isSome then
        match memoFind s.memo p with
        | some [e1] => .ok (e == e1) s
        | _ => .fatal .memoMulti
      else
        let w := s.matched.length
        let dispatched : Res :=
          match p with
          | .wildcard => .ok true s
          | .exprPat pe =>
            match tryGetValOfVar env e with
            | .error er => .fatal er
            | .ok e2 => .ok (pe == e2) s
          | .varPat h =>
            .ok (isVarNode e && (h == "" || h == varName e)) s
          | .dataflowVarPat h =>
            .ok (isDataflowVarNode e && (h == "" || h == varName e)) s
          | .globalVarPat h =>
            match e with
            | .globalVar n => .ok (h == "" || h == n) s
            | _ => .ok false s
          | .externFuncPat sym =>
            match tryGetValOfVar env e with
            | .error er => .fatal er
            | .ok e2 =>
              match e2 with
              | .externFunc g => .ok (sym == "" || sym == g) s
              | _ => .ok false s
          | .constantPat =>
            .ok (match e with | .constant _ => true | _ => false) s
          | .runtimeDepShapePat =>
            .ok (decide (env.shapeOf e = .runtimeDep)) s
          | .orPat l r =>
            match tryGetValOfVar env e with
            | .error er => .fatal er
            | .ok e2 =>
              (run env f (.visit l e2) s).andThen fun b s1 =>
                if b then .ok true s1 else run env f (.visit r e2) s1
          | .andPat l r =>
            match tryGetValOfVar env e with
            | .error er => .fatal er
            | .ok e2 =>
              (run env f (.visit l e2) s).andThen fun b s1 =>
                if b then run env f (.visit r e2) s1 else .ok false s1
          | .notPat q =>
            match tryGetValOfVar env e with
            | .error er => .fatal er
            | .ok e2 =>
              (run env f (.visit q e2) s).andThen fun b s1 => .ok (!b) s1
          | .tuplePat fields =>
            match tryGetValOfVar env e with
            | .error er => .fatal er
            | .ok e2 =>
              match e2 with
              | .tuple fs =>
                match fields with
                | none => .ok true s
                | some ps =>
                  if ps.length = fs.length then run env f (.argsLoop ps fs) s
                  else .ok false s
              | _ => .ok false s
          | .tupleGetItemPat tp idx =>
            match tryGetValOfVar env e with
            | .error er => .fatal er
            | .ok e2 =>
              match e2 with
              | .tupleGetItem t i =>
                if idx == -1 || idx == i then run env f (.visit tp t) s
                else .ok false s
              | _ => .ok false s
          | .funcPat params body =>
            match tryGetValOfVar env e with
            | .error er => .fatal er
            | .ok e2 =>
              match e2 with
              | .func ps b =>
                match params with
                | none => run env f (.visit body b) s
                | some pps =>
                  if pps.length = ps.length then
                    (run env f (.argsLoop pps ps) s).andThen fun bb s1 =>
                      if bb then run env f (.visit body b) s1 else .ok false s1
                  else .ok false s
              | _ => .ok false s
          | .ifPat pc pt pf =>
            match e with
            | .ifE c t el =>
              (run env f (.visit pc c) s).andThen fun b1 s1 =>
                if b1 then
                  (run env f (.visit pt t) s1).andThen fun b2 s2 =>
                    if b2 then run env f (.visit pf el) s2 else .ok false s2
                else .ok false s1
            | _ => .ok false s
          | .attrPat inner attrs =>
            match tryGetValOfVar env e with
            | .error er => .fatal er
            | .ok e2 =>
              (run env f (.visit inner e2) s).andThen fun b s1 =>
                if b then .ok (env.attrsOk attrs e2) s1 else .ok false s1
          | .typePat inner ty =>
            match tryGetValOfVar env e with
            | .error er => .fatal er
            | .ok e2 =>
              if decide (ty = env.checkedTypeOf e2) then run env f (.visit inner e2) s
              else .ok false s
          | .shapePat inner dims =>
            match env.shapeOf e with
            | .shapeOf vals =>
              if shapeEqual env dims vals then run env f (.visit inner e) s
              else .ok false s
            | _ => .ok false s
          | .dataTypePat inner dt =>
            match env.checkedTypeOf e with
            | .dynTensor _ d => if dt == d then run env f (.visit inner e) s else .ok false s
            | _ => .ok false s
          | .primArrPat arr =>
            match tryGetValOfVar env e with
            | .error er => .fatal er
            | .ok e2 =>
              match e2 with
              | .shapeExpr vals => .ok (shapeEqual env arr vals) s
              | _ => .ok false s
          | .dominatorPat c pth par =>
            (run env f (.visit c e) s).andThen fun b s1 =>
              if b then
                (run env f (.pathOf pth par e) s1).andThen fun mp s2 =>
                  let s3 := { s2 with memoize := true }
                  if mp then run env f (.domStack par [e] []) s3 else .ok false s3
              else .ok false s1
          | .callPat opP argsP =>
            match tryGetValOfVar env e with
            | .error er => .fatal er
            | .ok e2 =>
              match e2 with
              | .call opE argsE =>
                let margs : Option (List Pattern) → Nat → MState → Res :=
                  fun pargs w2 st =>
                    match pargs with
                    | none => .ok true st
                    | some ps =>
                      if ps.length = argsE.length then
                        (run env f (.argsLoop ps argsE) st).andThen fun b st2 =>
                          if b then .ok true st2 else .ok false (clearMap w2 st2)
                      else .ok false (clearMap w2 st)
                (run env f (.visit opP opE) s).andThen fun bOp s1 =>
                if bOp then
                  let w2 := s1.matched.length
                  (margs argsP w2 s1).andThen fun m1 s2 =>
                  if m1 then .ok true s2
                  else
                    match opPatName opP with
                    | some n =>
                      if n == "add" || n == "multiply" then
                        (margs (reverseArgs argsP) w2 s2).andThen fun m2 s3 => .ok m2 s3
                      else .ok false s2
                    | none => .ok false s2
                else
                  let sc := clearMap w s1
                  match divRewrites opP argsP e2 argsE with
                  | .error er => .fatal er
                  | .ok (some (mul0, mul1)) =>
                    (run env f (.visit mul0 e2) sc).andThen fun o1 t1 =>
                      if o1 then .ok true t1
                      else
                        (run env f (.visit mul1 e2) (clearMap w t1)).andThen fun o2 t2 =>
                          if o2 then .ok true t2 else .ok false (clearMap w t2)
                  | .ok none =>
                    if opPatName opP == some "multiply" then
                      match mulRewrite opP argsP e2 argsE with
                      | .error er => .fatal er
                      | .ok (some d) => run env f (.visit d e2) sc
                      | .ok none => .ok false sc
                    else .ok false sc
              | _ => .ok false s
        dispatched.andThen fun b s2 =>
          if b then .ok true (pushMatch p e s2) else .ok false (clearMap w s2)
  | f+1, .argsLoop ps es, s =>
    match ps, es with
    | [], _ => .ok true s
    | _ :: _, [] => .fatal .arrayOOB
    | q :: qs, x :: xs =>
      (run env f (.visit q x) s).andThen fun b s1 =>
        if b then run env f (.argsLoop qs xs) s1 else .ok false s1
  | f+1, .pathOf pth par e, s =>
    match graphFind env.graph e with
    | none => .fatal .graphMiss
    | some node =>
      let skip : Option Expr := match e with | .call op _ => some op | _ => none
      run env f (.pathInputs pth par skip node.inputs) s
  | f+1, .pathInputs pth par skip nodes, s =>
    match nodes with
    | [] => .ok true s
    | n :: rest =>
      if decide (skip = some n) then run env f (.pathInputs pth par skip rest) s
      else
        let s1 := { s with memoize := true }
        (run env f (.visit par n) s1).andThen fun b s2 =>
          if b then .ok true s2
          else
            let s3 := { s2 with memoize := false }
            (run env f (.visit pth n) s3).andThen fun bp s4 =>
              if !bp then .ok false s4
              else
                (run env f (.pathOf pth par n) s4).andThen fun bm s5 =>
                  if !bm then .ok false s5
                  else run env f (.pathInputs pth par skip rest) s5
  | f+1, .domStack par stack visited, s =>
    match stack with
    | [] => .ok false s
    | cur :: rest =>
      match graphFind env.graph cur with
      | none => .fatal .graphMiss
      | some node => run env f (.domKids par node.domChildren rest visited) s
  | f+1, .domKids par kids stack visited, s =>
    match kids with
    | [] => run env f (.domStack par stack visited) s
    | n :: ns =>
      if decide (n ∈ visited) then run env f (.domKids par ns stack visited) s
      else
        (run env f (.visit par n) s).andThen fun b s1 =>
          if b then .ok true s1
          else run env f (.domKids par ns (n :: stack) (n :: visited)) s1

/-- `DFPatternMatcher::Match` (lines 551-556): clear the memo and the
matched-nodes stack and run the recursive dispatcher; the autojump flag
and `var2val` live in `env`. -/
def dfMatch (env : Env) (fuel : Nat) (p : Pattern) (e : Expr) : Res :=
  run env fuel (.visit p e) MState.init

/-- `MatchExprPattern` (lines 979-984): autojump is enabled exactly when a
`var2val` map is supplied. -/
def matchExprPattern (env : Env) (fuel : Nat) (p : Pattern) (e : Expr)
    (var2val : Option (List (Expr × Expr))) : Res :=
  dfMatch { env with autojump := var2val.isSome, var2val := var2val } fuel p e

/-- The match of `p` against `e` returns boolean `b` for some fuel. -/
def ReturnsB (env : Env) (p : Pattern) (e : Expr) (b : Bool) : Prop :=
  ∃ f s, dfMatch env f p e = .ok b s

/-- Boolean outcome of a result, when it returned one. -/
def Res.boolOut : Res → Option Bool
  | .ok b _ => some b
  | _ => none

/-- Length of `matched_nodes_` in the final state of a returned result. -/
def Res.matchedLen : Res → Nat
  | .ok _ s => s.matched.length
  | _ => 0

/-- Number of entries (keys) of `memo_` in the final state. -/
def Res.memoKeys : Res → Nat
  | .ok _ s => s.memo.length
  | _ => 0

/-- The sizes of the expression arrays stored in `memo_`, in key order. -/
def Res.memoEntrySizes : Res → List Nat
  | .ok _ s => s.memo.map (fun kv => kv.2.length)
  | _ => []

/-- Dispatch value of the non-recursive ("leaf") pattern handlers, as a
pure function of the (already auto-jumped) expression: `Wildcard`,
`ExprPattern`, `Var`, `DataflowVar`, `GlobalVar`, `ExternFunc`,
`Constant` and `RuntimeDepShape`.  With autojump disabled this is exactly
what their `VisitDFPattern_` overloads return. -/
def leafEval (env : Env) : Pattern → Expr → Bool
  | .wildcard, _ => true
  | .exprPat pe, e => pe == e
  | .varPat h, e => isVarNode e && (h == "" || h == varName e)
  | .dataflowVarPat h, e => isDataflowVarNode e && (h == "" || h == varName e)
  | .globalVarPat h, e => match e with | .globalVar n => h == "" || h == n | _ => false
  | .externFuncPat sym, e => match e with | .externFunc g => sym == "" || sym == g | _ => false
  | .constantPat, e => match e with | .constant _ => true | _ => false
  | .runtimeDepShapePat, e => decide (env.shapeOf e = .runtimeDep)
  | _, _ => false

/-- The patterns whose handlers neither recurse nor touch the matcher
state. -/
def isAtomicPat : Pattern → Bool
  | .wildcard | .exprPat _ | .varPat _ | .dataflowVarPat _ | .globalVarPat _
  | .externFuncPat _ | .constantPat | .runtimeDepShapePat => true
  | _ => false

/-- A neutral environment: no autojump, empty graph, trivial oracles. -/
def envPlain : Env :=
  ⟨false, none, [], fun _ => .noShape, fun _ => .tyOther 0, fun _ _ => false,
    fun a b => a == b⟩

/-- Autojump requested but no `var2val` given (the C++ `Match(p, e, true)`
on a matcher constructed without a map). -/
def envNoMap : Env :=
  ⟨true, none, [], fun _ => .noShape, fun _ => .tyOther 0, fun _ _ => false,
    fun a b => a == b⟩

/-- Autojump with the binding `v ↦ Constant`. -/
def envJumpConst : Env :=
  ⟨true, some [(.var "v", .constant 0)], [], fun _ => .noShape,
    fun _ => .tyOther 0, fun _ _ => false, fun a b => a == b⟩

/-- Autojump with the chained bindings `v ↦ w`, `w ↦ Constant` (a legal
dataflow block: `w = const; v = w`). -/
def envChain : Env :=
  ⟨true, some [(.var "v", .var "w"), (.var "w", .constant 0)], [],
    fun _ => .noShape, fun _ => .tyOther 0, fun _ _ => false, fun a b => a == b⟩

/-- Expressions of the dominator scenario: root = Tuple(a, b),
a = Tuple(p), b = Tuple(p, p), with p a constant; p is the immediate
dominator child of the root. -/
def domExprParent : Expr := .constant 0

def domExprA : Expr := .tuple [domExprParent]

def domExprB : Expr := .tuple [domExprParent, domExprParent]

def domExprRoot : Expr := .tuple [domExprA, domExprB]

/-- Environment whose expression graph describes the dominator scenario. -/
def envDom : Env :=
  ⟨false, none,
    [(domExprRoot, ⟨[domExprA, domExprB], [domExprParent]⟩),
     (domExprA, ⟨[domExprParent], []⟩),
     (domExprB, ⟨[domExprParent, domExprParent], []⟩),
     (domExprParent, ⟨[], []⟩)],
    fun _ => .noShape, fun _ => .tyOther 0, fun _ _ => false, fun a b => a == b⟩

/-- Dominator(child = Tuple(...), path = Wildcard, parent = Constant). -/
def domPattern : Pattern := .dominatorPat (.tuplePat none) .wildcard .constantPat

/-- An environment whose shape oracle gives `Constant 0` the symbolic
shape `[n, 3]`. -/
def envShapeN3 : Env :=
  ⟨false, none, [],
    fun e => match e with
      | .constant 0 => .shapeOf [.pvar "n", .pint 3]
      | _ => .noShape,
    fun _ => .tyOther 0, fun _ _ => false, fun a b => a == b⟩

/-- Autojump with an (empty) `var2val` and the one-node expression graph of
the variable `v`. -/
def envVarGraph : Env :=
  ⟨true, some [], [(.var "v", ⟨[], []⟩)], fun _ => .noShape,
    fun _ => .tyOther 0, fun _ _ => false, fun a b => a == b⟩


theorem memoFind_memoAdd_self (m : List (Pattern × List Expr)) (p : Pattern) (e : Expr) :
    memoFind (memoAdd m p e) p = some ((memoFind m p).getD [] ++ [e]) := by
  induction m with
  | nil => simp [memoAdd, memoFind]
  | cons kv rest ih =>
    by_cases h : kv.1 = p
    · simp [memoAdd, memoFind, h]
    · simp [memoAdd, memoFind, h, ih]

theorem memoFind_memoAdd_other (m : List (Pattern × List Expr)) (p q : Pattern) (e : Expr)
    (h : q ≠ p) : memoFind (memoAdd m p e) q = memoFind m q := by
  induction m with
  | nil => simp [memoAdd, memoFind, Ne.symm h]
  | cons kv rest ih =>
    by_cases hk : kv.1 = p
    · subst hk
      simp [memoAdd, memoFind, show ¬kv.1 = q from fun hh => h hh.symm]
    · by_cases hq : kv.1 = q <;> simp [memoAdd, memoFind, hk, hq, h, Ne.symm h, ih]

theorem memoFind_memoErase_self (m : List (Pattern × List Expr)) (p : Pattern) :
    memoFind (memoErase m p) p = none := by
  induction m with
  | nil => simp [memoErase, memoFind]
  | cons kv rest ih =>
    by_cases h : kv.1 = p <;> simp [memoErase, memoFind, h, ih]

theorem memoFind_memoErase_other (m : List (Pattern × List Expr)) (p q : Pattern)
    (h : q ≠ p) : memoFind (memoErase m p) q = memoFind m q := by
  induction m with
  | nil => simp [memoErase, memoFind]
  | cons kv rest ih =>
    by_cases hk : kv.1 = p
    · subst hk
      simp [memoErase, memoFind, show ¬kv.1 = q from fun hh => h hh.symm, ih]
    · by_cases hq : kv.1 = q <;> simp [memoErase, memoFind, hk, hq, h, Ne.symm h, ih]

theorem memoFind_eraseFold (ks : List Pattern) :
    ∀ (m : List (Pattern × List Expr)) (q : Pattern),
      memoFind (ks.foldl (fun acc k => memoErase acc k) m) q =
        if q ∈ ks then none else memoFind m q := by
  induction ks with
  | nil => simp
  | cons k rest ih =>
    intro m q
    by_cases hq : q ∈ rest
    · simp [List.foldl_cons, ih, hq]
    · by_cases hk : q = k
      · subst hk
        simp [List.foldl_cons, ih, hq, memoFind_memoErase_self]
      · simp [List.foldl_cons, ih, hq, hk, memoFind_memoErase_other _ _ _ hk]

/-- The memo keys are always among the matched nodes: every key is created
by the paired pushes of `VisitDFPattern` and only removed by `ClearMap`. -/
def KeysIn (s : MState) : Prop :=
  ∀ q l, memoFind s.memo q = some l → q ∈ s.matched

theorem keysIn_init : KeysIn MState.init := by
  intro q l h
  simp [MState.init, memoFind] at h

theorem keysIn_pushMatch {s : MState} (hs : KeysIn s) (p : Pattern) (e : Expr) :
    KeysIn (pushMatch p e s) := by
  intro q l h
  simp only [pushMatch] at h ⊢
  by_cases hq : q = p
  · simp [hq]
  · rw [memoFind_memoAdd_other _ _ _ _ hq] at h
    exact List.mem_append_left _ (hs q l h)

theorem keysIn_clearMap {s : MState} (hs : KeysIn s) (w : Nat) :
    KeysIn (clearMap w s) := by
  intro q l h
  simp only [clearMap, memoFind_eraseFold] at h
  split at h
  · exact absurd h (by simp)
  · rename_i hnot
    have := hs q l h
    rw [← List.take_append_drop w s.matched] at this
    rcases List.mem_append.mp this with h1 | h2
    · exact h1
    · exact absurd h2 hnot

theorem keysIn_memoize {s : MState} (hs : KeysIn s) (b : Bool) :
    KeysIn { s with memoize := b } := hs

/-- A result whose final state keeps the key discipline. -/
def ResKeysIn (r : Res) : Prop :=
  ∀ b s', r = .ok b s' → KeysIn s'

theorem resKeysIn_ok {b : Bool} {s : MState} (hs : KeysIn s) : ResKeysIn (.ok b s) := by
  intro b' s' h
  cases h
  exact hs

theorem resKeysIn_fatal {e : MErr} : ResKeysIn (.fatal e) := by
  intro b s h
  cases h

theorem resKeysIn_fuelOut : ResKeysIn .fuelOut := by
  intro b s h
  cases h

theorem resKeysIn_andThen {r : Res} {k : Bool → MState → Res}
    (hr : ResKeysIn r) (hk : ∀ b1 s1, r = .ok b1 s1 → ResKeysIn (k b1 s1)) :
    ResKeysIn (r.andThen k) := by
  intro b s h
  cases r with
  | ok b1 s1 => exact hk b1 s1 rfl b s h
  | fatal e => cases h
  | fuelOut => cases h

theorem resKeysIn_andThen2 {r : Res} {k : Bool → MState → Res}
    (hr : ResKeysIn r) (hk : ∀ b1 s1, KeysIn s1 → ResKeysIn (k b1 s1)) :
    ResKeysIn (r.andThen k) := by
  cases r with
  | ok b1 s1 => exact hk b1 s1 (hr b1 s1 rfl)
  | fatal e => exact resKeysIn_fatal
  | fuelOut => exact resKeysIn_fuelOut

/-- Every matcher routine preserves the key discipline: whenever a step
returns a boolean, the final state's memo keys are all recorded in
`matched_nodes_`. -/
theorem run_keysIn (env : Env) :
    ∀ f t s, KeysIn s → ResKeysIn (run env f t s) := by
  intro f
  induction f with
  | zero => intro t s _; exact resKeysIn_fuelOut
  | succ f ih =>
    intro t s hs
    cases t with
    | visit p e0 =>
      simp only [run]
      split
      · exact resKeysIn_fatal
      · split
        · split
          · exact resKeysIn_ok hs
          · exact resKeysIn_fatal
        · refine resKeysIn_andThen2 ?_ (fun b1 s1 k1 => by
            split
            · exact resKeysIn_ok (keysIn_pushMatch k1 _ _)
            · exact resKeysIn_ok (keysIn_clearMap k1 _))
          cases p
          case wildcard =>
            dsimp only
            exact resKeysIn_ok hs
          case exprPat pe =>
            dsimp only
            split
            · exact resKeysIn_fatal
            · exact resKeysIn_ok hs
          case varPat h =>
            dsimp only
            exact resKeysIn_ok hs
          case dataflowVarPat h =>
            dsimp only
            exact resKeysIn_ok hs
          case globalVarPat h =>
            dsimp only
            split <;> exact resKeysIn_ok hs
          case externFuncPat sym =>
            dsimp only
            split
            · exact resKeysIn_fatal
            · split <;> exact resKeysIn_ok hs
          case constantPat =>
            dsimp only
            exact resKeysIn_ok hs
          case runtimeDepShapePat =>
            dsimp only
            exact resKeysIn_ok hs
          case orPat l r =>
            dsimp only
            split
            · exact resKeysIn_fatal
            · refine resKeysIn_andThen2 (ih _ _ hs) (fun b1 s1 k1 => ?_)
              split
              · exact resKeysIn_ok k1
              · exact ih _ _ k1
          case andPat l r =>
            dsimp only
            split
            · exact resKeysIn_fatal
            · refine resKeysIn_andThen2 (ih _ _ hs) (fun b1 s1 k1 => ?_)
              split
              · exact ih _ _ k1
              · exact resKeysIn_ok k1
          case notPat q =>
            dsimp only
            split
            · exact resKeysIn_fatal
            · exact resKeysIn_andThen2 (ih _ _ hs) (fun b1 s1 k1 => resKeysIn_ok k1)
          case tuplePat fields =>
            dsimp only
            split
            · exact resKeysIn_fatal
            · split
              · split
                · exact resKeysIn_ok hs
                · split
                  · exact ih _ _ hs
                  · exact resKeysIn_ok hs
              · exact resKeysIn_ok hs
          case tupleGetItemPat tp idx =>
            dsimp only
            split
            · exact resKeysIn_fatal
            · split
              · split
                · exact ih _ _ hs
                · exact resKeysIn_ok hs
              · exact resKeysIn_ok hs
          case funcPat params body =>
            dsimp only
            split
            · exact resKeysIn_fatal
            · split
              · split
                · exact ih _ _ hs
                · split
                  · refine resKeysIn_andThen2 (ih _ _ hs) (fun bb s1 k1 => ?_)
                    split
                    · exact ih _ _ k1
                    · exact resKeysIn_ok k1
                  · exact resKeysIn_ok hs
              · exact resKeysIn_ok hs
          case ifPat pc pt pf =>
            dsimp only
            split
            · refine resKeysIn_andThen2 (ih _ _ hs) (fun b1 s1 k1 => ?_)
              split
              · refine resKeysIn_andThen2 (ih _ _ k1) (fun b2 s2 k2 => ?_)
                split
                · exact ih _ _ k2
                · exact resKeysIn_ok k2
              · exact resKeysIn_ok k1
            · exact resKeysIn_ok hs
          case attrPat inner attrs =>
            dsimp only
            split
            · exact resKeysIn_fatal
            · refine resKeysIn_andThen2 (ih _ _ hs) (fun b1 s1 k1 => ?_)
              split
              · exact resKeysIn_ok k1
              · exact resKeysIn_ok k1
          case typePat inner ty =>
            dsimp only
            split
            · exact resKeysIn_fatal
            · split
              · exact ih _ _ hs
              · exact resKeysIn_ok hs
          case shapePat inner dims =>
            dsimp only
            split
            · split
              · exact ih _ _ hs
              · exact resKeysIn_ok hs
            · exact resKeysIn_ok hs
          case dataTypePat inner dt =>
            dsimp only
            split
            · split
              · exact ih _ _ hs
              · exact resKeysIn_ok hs
            · exact resKeysIn_ok hs
          case primArrPat arr =>
            dsimp only
            split
            · exact resKeysIn_fatal
            · split <;> exact resKeysIn_ok hs
          case dominatorPat c pth par =>
            dsimp only
            refine resKeysIn_andThen2 (ih _ _ hs) (fun b s1 k1 => ?_)
            split
            · refine resKeysIn_andThen2 (ih _ _ k1) (fun mp s2 k2 => ?_)
              split
              · exact ih _ _ (keysIn_memoize k2 _)
              · exact resKeysIn_ok (keysIn_memoize k2 _)
            · exact resKeysIn_ok k1
          case callPat opP argsP =>
            dsimp only
            split
            · exact resKeysIn_fatal
            · split
              · refine resKeysIn_andThen2 (ih _ _ hs) (fun bOp s1 k1 => ?_)
                split
                · refine resKeysIn_andThen2 ?_ (fun m1 s2 k2 => ?_)
                  · split
                    · exact resKeysIn_ok k1
                    · split
                      · refine resKeysIn_andThen2 (ih _ _ k1) (fun b st2 kst2 => ?_)
                        split
                        · exact resKeysIn_ok kst2
                        · exact resKeysIn_ok (keysIn_clearMap kst2 _)
                      · exact resKeysIn_ok (keysIn_clearMap k1 _)
                  · split
                    · exact resKeysIn_ok k2
                    · split
                      · split
                        · refine resKeysIn_andThen2 ?_ (fun m2 s3 k3 => resKeysIn_ok k3)
                          split
                          · exact resKeysIn_ok k2
                          · split
                            · refine resKeysIn_andThen2 (ih _ _ k2) (fun b st2 kst2 => ?_)
                              split
                              · exact resKeysIn_ok kst2
                              · exact resKeysIn_ok (keysIn_clearMap kst2 _)
                            · exact resKeysIn_ok (keysIn_clearMap k2 _)
                        · exact resKeysIn_ok k2
                      · exact resKeysIn_ok k2
                · split
                  · exact resKeysIn_fatal
                  · refine resKeysIn_andThen2 (ih _ _ (keysIn_clearMap k1 _)) (fun o1 t1 kt1 => ?_)
                    split
                    · exact resKeysIn_ok kt1
                    · refine resKeysIn_andThen2 (ih _ _ (keysIn_clearMap kt1 _)) (fun o2 t2 kt2 => ?_)
                      split
                      · exact resKeysIn_ok kt2
                      · exact resKeysIn_ok (keysIn_clearMap kt2 _)
                  · split
                    · split
                      · exact resKeysIn_fatal
                      · exact ih _ _ (keysIn_clearMap k1 _)
                      · exact resKeysIn_ok (keysIn_clearMap k1 _)
                    · exact resKeysIn_ok (keysIn_clearMap k1 _)
              · exact resKeysIn_ok hs
    | argsLoop ps es =>
      simp only [run]
      split
      · exact resKeysIn_ok hs
      · exact resKeysIn_fatal
      · refine resKeysIn_andThen2 (ih _ _ hs) (fun b s1 k1 => ?_)
        split
        · exact ih _ _ k1
        · exact resKeysIn_ok k1
    | pathOf pth par e =>
      simp only [run]
      split
      · exact resKeysIn_fatal
      · exact ih _ _ hs
    | pathInputs pth par skip nodes =>
      simp only [run]
      split
      · exact resKeysIn_ok hs
      · split
        · exact ih _ _ hs
        · refine resKeysIn_andThen2 (ih _ _ (keysIn_memoize hs _)) (fun b s2 k2 => ?_)
          split
          · exact resKeysIn_ok k2
          · refine resKeysIn_andThen2 (ih _ _ (keysIn_memoize k2 _)) (fun bp s4 k4 => ?_)
            split
            · exact resKeysIn_ok k4
            · refine resKeysIn_andThen2 (ih _ _ k4) (fun bm s5 k5 => ?_)
              split
              · exact resKeysIn_ok k5
              · exact ih _ _ k5
    | domStack par stack visited =>
      simp only [run]
      split
      · exact resKeysIn_ok hs
      · split
        · exact resKeysIn_fatal
        · exact ih _ _ hs
    | domKids par kids stack visited =>
      simp only [run]
      split
      · exact ih _ _ hs
      · split
        · exact ih _ _ hs
        · refine resKeysIn_andThen2 (ih _ _ hs) (fun b s1 k1 => ?_)
          split
          · exact resKeysIn_ok k1
          · exact ih _ _ k1

theorem memo_eq_nil_of_no_keys {m : List (Pattern × List Expr)}
    (h : ∀ q, memoFind m q = none) : m = [] := by
  cases m with
  | nil => rfl
  | cons kv rest =>
    have := h kv.1
    simp [memoFind] at this

/-- Rolling back to the empty watermark from a key-disciplined state
empties both structures. -/
theorem clearMap_zero {s : MState} (hs : KeysIn s) :
    (clearMap 0 s).memo = [] ∧ (clearMap 0 s).matched = [] := by
  refine ⟨?_, by simp [clearMap]⟩
  apply memo_eq_nil_of_no_keys
  intro q
  simp only [clearMap, List.drop_zero, memoFind_eraseFold]
  split
  · rfl
  · rename_i hq
    cases hfind : memoFind s.memo q with
    | none => rfl
    | some l => exact absurd (hs q l hfind) hq

/-- Rolling back to the current length is a no-op. -/
theorem clearMap_full (s : MState) : clearMap s.matched.length s = s := by
  simp [clearMap, List.take_length]

theorem tryGetValOfVar_nojump {env : Env} (haj : env.autojump = false) (e : Expr) :
    tryGetValOfVar env e = .ok e := by
  simp [tryGetValOfVar, haj]

/-- A failed match from the cleared initial state leaves both structures
empty (helper shared by the claims below). -/
theorem run_false_init_resets (env : Env) (f : Nat) (p : Pattern) (e : Expr) (s' : MState)
    (h : dfMatch env f p e = .ok false s') : s'.memo = [] ∧ s'.matched = [] := by
  have hks : KeysIn s' := run_keysIn env f _ _ keysIn_init false s' h
  have hmt : s'.matched = [] := by
    cases f with
    | zero => simp [dfMatch, run] at h
    | succ f =>
      simp only [dfMatch, run] at h
      split at h
      · simp at h
      · split at h
        · rename_i hcond
          simp [MState.init, memoFind] at hcond
        · simp only [Res.andThen] at h
          split at h
          · simp only [] at h
            split at h
            · simp at h
            · injection h with h1 h2
              rw [← h2]
              simp [clearMap, MState.init]
          · simp at h
          · simp at h
  refine ⟨memo_eq_nil_of_no_keys (fun q => ?_), hmt⟩
  cases hf : memoFind s'.memo q with
  | none => rfl
  | some l =>
    have := hks q l hf
    rw [hmt] at this
    simp at this

/-- C2: if the public `Match(pattern, expr)` call returns false, then on
return both the memo table and the matched-nodes stack are empty: the
failed attempt is rolled back to the empty initial state. -/
theorem match_false_resets (env : Env) (f : Nat) (p : Pattern) (e : Expr) (s' : MState)
    (h : dfMatch env f p e = .ok false s') : s'.memo = [] ∧ s'.matched = [] :=
  run_false_init_resets env f p e s' h

/-- Witness for C2 at a concrete failing match. -/
theorem match_false_resets_witness :
    (MState.mk [] [] true).memo = [] ∧ (MState.mk [] [] true).matched = [] :=
  match_false_resets envPlain 3 .constantPat (.var "x") ⟨[], [], true⟩ (by decide)

/-- C4: with memoization enabled, visiting a pattern that is already in
the memo (with its single stored expression) succeeds iff the incoming
expression is the same object as the stored one, and leaves the state
untouched; hence a pattern occurring twice can only bind one expression,
and re-binding it to a different expression fails. -/
theorem memoized_visit_same_object (env : Env) (haj : env.autojump = false)
    (f : Nat) (p : Pattern) (e e1 : Expr) (s : MState)
    (hmz : s.memoize = true) (hfind : memoFind s.memo p = some [e1]) :
    run env (f+1) (.visit p e) s = .ok (e == e1) s := by
  simp only [run, tryGetValOfVar_nojump haj, hmz, hfind]
  simp

/-- Witness for C4: a memoized wildcard, hit with the stored expression
(succeeds) and with a different expression (fails), state untouched. -/
theorem memoized_visit_same_object_witness :
    run envPlain 3 (.visit .wildcard (.constant 0))
        ⟨[(.wildcard, [.constant 0])], [.wildcard], true⟩ =
      .ok true ⟨[(.wildcard, [.constant 0])], [.wildcard], true⟩ ∧
    run envPlain 3 (.visit .wildcard (.constant 1))
        ⟨[(.wildcard, [.constant 0])], [.wildcard], true⟩ =
      .ok false ⟨[(.wildcard, [.constant 0])], [.wildcard], true⟩ :=
  ⟨memoized_visit_same_object envPlain rfl 2 .wildcard (.constant 0) (.constant 0) _ rfl rfl,
   memoized_visit_same_object envPlain rfl 2 .wildcard (.constant 1) (.constant 0) _ rfl rfl⟩

/-- C7 (counterexample to the claim as stated): a match run with autojump
requested and no `var2val` mapping does not abort when it never visits a
variable: it returns an ordinary boolean. -/
theorem autojump_no_map_no_var_returns :
    dfMatch envNoMap 3 .wildcard (.constant 0) =
      .ok true ⟨[(.wildcard, [.constant 0])], [.wildcard], true⟩ := by
  decide

/-- C7 (amended): with autojump requested and no `var2val` mapping, the
matcher aborts with the fatal `ICHECK` of `TryGetValOfVar` exactly upon
visiting a variable expression (so a match whose subject is a variable
always aborts), and matches that never visit a variable return a boolean
(see the counterexample theorem). -/
theorem autojump_without_map_aborts (env : Env) (haj : env.autojump = true)
    (hmap : env.var2val = none) (f : Nat) (p : Pattern) (e : Expr) (s : MState)
    (hv : isVarNode e = true) :
    run env (f+1) (.visit p e) s = .fatal .noVar2Val := by
  simp [run, tryGetValOfVar, haj, hmap, hv]

/-- Witness for the amended C7. -/
theorem autojump_without_map_aborts_witness :
    run envNoMap 3 (.visit .wildcard (.var "v")) MState.init = .fatal .noVar2Val :=
  autojump_without_map_aborts envNoMap rfl rfl 2 .wildcard (.var "v") MState.init rfl

/-- C9: a plain `Var` pattern accepts dataflow variables (empty hint or a
hint equal to the dataflow variable's name), because `DataflowVar` is a
subtype of `Var`; conversely a `DataflowVar` pattern fails on every
expression that is not a dataflow variable, including an ordinary `Var`
with a matching name hint. -/
theorem var_pattern_accepts_dataflow (env : Env) (haj : env.autojump = false) (f : Nat) :
    (∀ h n : String, (h = "" ∨ h = n) →
      run env (f+1) (.visit (.varPat h) (.dataflowVar n)) MState.init =
        .ok true ⟨[(.varPat h, [.dataflowVar n])], [.varPat h], true⟩) ∧
    (∀ (h : String) (e : Expr), isDataflowVarNode e = false →
      run env (f+1) (.visit (.dataflowVarPat h) e) MState.init = .ok false MState.init) := by
  constructor
  · intro h n hn
    have hb : (h == "" || h == n) = true := by
      rcases hn with hn | hn <;> simp [hn]
    simp [run, tryGetValOfVar_nojump haj, MState.init, memoFind, isVarNode, varName, hb,
      Res.andThen, pushMatch, memoAdd]
  · intro h e he
    simp [run, tryGetValOfVar_nojump haj, MState.init, memoFind, he, Res.andThen, clearMap]

/-- Witness for C9. -/
theorem var_pattern_accepts_dataflow_witness :
    run envPlain 3 (.visit (.varPat "x") (.dataflowVar "x")) MState.init =
      .ok true ⟨[(.varPat "x", [.dataflowVar "x"])], [.varPat "x"], true⟩ ∧
    run envPlain 3 (.visit (.dataflowVarPat "y") (.var "y")) MState.init =
      .ok false MState.init :=
  ⟨(var_pattern_accepts_dataflow envPlain rfl 2).1 "x" "x" (Or.inr rfl),
   (var_pattern_accepts_dataflow envPlain rfl 2).2 "y" (.var "y") rfl⟩

theorem shapeEqual_iff (env : Env) : ∀ a b : List PrimExpr,
    shapeEqual env a b = true ↔
      (a.length = b.length ∧
        ∀ i, ∀ h1 : i < a.length, ∀ h2 : i < b.length,
          env.primEqOne (a.get ⟨i, h1⟩) (b.get ⟨i, h2⟩) = true) := by
  intro a
  induction a with
  | nil =>
    intro b
    cases b <;> simp [shapeEqual]
  | cons x xs ih =>
    intro b
    cases b with
    | nil => simp [shapeEqual]
    | cons y ys =>
      rw [show shapeEqual env (x :: xs) (y :: ys) =
        (env.primEqOne x y && shapeEqual env xs ys) from rfl]
      simp only [Bool.and_eq_true, ih, List.length_cons]
      constructor
      · rintro ⟨hx, hlen, hall⟩
        refine ⟨by omega, ?_⟩
        intro i h1 h2
        cases i with
        | zero => exact hx
        | succ i => exact hall i (by omega) (by omega)
      · rintro ⟨hlen, hall⟩
        exact ⟨hall 0 (by omega) (by omega), by omega,
          fun i h1 h2 => hall (i+1) (by omega) (by omega)⟩

/-- C8: matching `Shape(inner, dims)` against `e` succeeds iff `e.shape`
is a `ShapeExpr` whose value list has the same length as `dims`, each
dimension equation `dims[i] == actual[i]` simplifies to one under the
arithmetic analyzer at the same position (order-sensitive), and `inner`
matches `e`. -/
theorem shape_pattern_iff (env : Env) (haj : env.autojump = false)
    (f : Nat) (inner : Pattern) (dims : List PrimExpr) (e : Expr) :
    (∃ s1, run env (f+1) (.visit (.shapePat inner dims) e) MState.init = .ok true s1) ↔
    (∃ vals, env.shapeOf e = .shapeOf vals ∧ dims.length = vals.length ∧
      (∀ i, ∀ h1 : i < dims.length, ∀ h2 : i < vals.length,
        env.primEqOne (dims.get ⟨i, h1⟩) (vals.get ⟨i, h2⟩) = true) ∧
      ∃ s2, run env f (.visit inner e) MState.init = .ok true s2) := by
  simp only [run, tryGetValOfVar_nojump haj]
  rw [show (MState.init.memoize &&
    (memoFind MState.init.memo (.shapePat inner dims)).isSome) = false from rfl]
  simp only [Bool.false_eq_true, if_false]
  cases hsh : env.shapeOf e with
  | shapeOf vals =>
    simp only [hsh]
    by_cases hse : shapeEqual env dims vals = true
    · simp only [hse, if_true]
      cases hr : run env f (.visit inner e) MState.init with
      | ok b s2 =>
        cases b with
        | true =>
          simp only [Res.andThen, if_true]
          constructor
          · intro _
            refine ⟨vals, rfl, ?_, ?_, ⟨s2, rfl⟩⟩
            · exact ((shapeEqual_iff env dims vals).mp hse).1
            · exact ((shapeEqual_iff env dims vals).mp hse).2
          · intro _
            exact ⟨_, rfl⟩
        | false =>
          simp only [Res.andThen]
          constructor
          · intro ⟨s1, hh⟩
            simp at hh
          · rintro ⟨vals2, hv2, _, _, s2b, hs2b⟩
            exact Res.noConfusion hs2b (fun h1 _ => Bool.noConfusion h1)
      | fatal er =>
        simp only [Res.andThen]
        constructor
        · rintro ⟨s1, hh⟩
          cases hh
        · rintro ⟨vals2, hv2, _, _, s2b, hs2b⟩
          exact Res.noConfusion hs2b
      | fuelOut =>
        simp only [Res.andThen]
        constructor
        · rintro ⟨s1, hh⟩
          cases hh
        · rintro ⟨vals2, hv2, _, _, s2b, hs2b⟩
          exact Res.noConfusion hs2b
    · simp only [hse, if_false]
      constructor
      · rintro ⟨s1, hh⟩
        simp [Res.andThen] at hh
      · rintro ⟨vals2, hv2, hlen, hidx, _⟩
        cases hv2
        exact absurd ((shapeEqual_iff env dims vals).mpr ⟨hlen, hidx⟩) hse
  | runtimeDep =>
    simp only [hsh]
    constructor
    · rintro ⟨s1, hh⟩
      simp [Res.andThen] at hh
    · rintro ⟨vals2, hv2, _⟩
      exact ShapeAnn.noConfusion hv2
  | noShape =>
    simp only [hsh]
    constructor
    · rintro ⟨s1, hh⟩
      simp [Res.andThen] at hh
    · rintro ⟨vals2, hv2, _⟩
      exact ShapeAnn.noConfusion hv2

/-- Witness for C8: shape pattern `[n, 3]` against an expression of
symbolic shape `[n, 3]` with a wildcard inner pattern. -/
theorem shape_pattern_iff_witness :
    (∃ s1, run envShapeN3 3 (.visit (.shapePat .wildcard [.pvar "n", .pint 3]) (.constant 0))
        MState.init = .ok true s1) ↔
    (∃ vals, envShapeN3.shapeOf (.constant 0) = .shapeOf vals ∧
      ([PrimExpr.pvar "n", PrimExpr.pint 3] : List PrimExpr).length = vals.length ∧
      (∀ i, ∀ h1 : i < ([PrimExpr.pvar "n", PrimExpr.pint 3] : List PrimExpr).length,
        ∀ h2 : i < vals.length,
        envShapeN3.primEqOne (([PrimExpr.pvar "n", PrimExpr.pint 3] :
          List PrimExpr).get ⟨i, h1⟩) (vals.get ⟨i, h2⟩) = true) ∧
      ∃ s2, run envShapeN3 2 (.visit .wildcard (.constant 0)) MState.init = .ok true s2) :=
  shape_pattern_iff envShapeN3 rfl 2 .wildcard [.pvar "n", .pint 3] (.constant 0)

/-- C6 (counterexample to the claim as stated): under autojump with the
chained bindings `v ↦ w ↦ Constant`, `match(Not(Var("")), v)` returns true
while `match(Var(""), v)` also returns true: the Not handler re-applies
the variable jump, so duality fails. -/
theorem not_duality_counterexample :
    ReturnsB envChain (.notPat (.varPat "")) (.var "v") true ∧
    ¬ ReturnsB envChain (.varPat "") (.var "v") false := by
  constructor
  · exact ⟨6, ⟨[(.notPat (.varPat ""), [.var "w"])], [.notPat (.varPat "")], true⟩, by decide⟩
  · rintro ⟨f, s, hf⟩
    cases f with
    | zero => exact Res.noConfusion hf
    | succ f =>
      have hv : dfMatch envChain (f+1) (.varPat "") (.var "v") =
          .ok true ⟨[(.varPat "", [.var "w"])], [.varPat ""], true⟩ := rfl
      rw [hv] at hf
      exact Res.noConfusion hf (fun h1 _ => Bool.noConfusion h1)

/-- C6 (amended): with autojump disabled, `match(Not(p), e)` returns
exactly the negation of `match(p, e)`; every binding attempted by `p` is
rolled back before Not returns, the only binding possibly left being the
dispatcher's own entry for the Not pattern on success. -/
theorem not_duality_nojump (env : Env) (haj : env.autojump = false)
    (f : Nat) (p : Pattern) (e : Expr) (b : Bool) (s1 : MState)
    (h : run env f (.visit p e) MState.init = .ok b s1) :
    ∃ s2, run env (f+1) (.visit (.notPat p) e) MState.init = .ok (!b) s2 ∧
      s2.memo = (if b then [] else [(.notPat p, [e])]) ∧
      s2.matched = (if b then ([] : List Pattern) else [.notPat p]) := by
  simp only [run, tryGetValOfVar_nojump haj]
  rw [show (MState.init.memoize &&
    (memoFind MState.init.memo (.notPat p)).isSome) = false from rfl]
  simp only [Bool.false_eq_true, if_false, h, Res.andThen]
  cases b with
  | true =>
    have hks : KeysIn s1 := run_keysIn env f _ _ keysIn_init true s1 h
    refine ⟨clearMap 0 s1, ?_, ?_, ?_⟩
    · simp [MState.init]
    · simpa using (clearMap_zero hks).1
    · simpa using (clearMap_zero hks).2
  | false =>
    have hempty := run_false_init_resets env f p e s1 h
    refine ⟨pushMatch (.notPat p) e s1, ?_, ?_, ?_⟩
    · simp
    · simp [pushMatch, hempty.1, memoAdd]
    · simp [pushMatch, hempty.2]

/-- Witness for the amended C6: Not(Constant) against a constant. -/
theorem not_duality_nojump_witness :
    ∃ s2, run envPlain 3 (.visit (.notPat .constantPat) (.constant 5)) MState.init =
        .ok false s2 ∧
      s2.memo = [] ∧ s2.matched = ([] : List Pattern) := by
  have h := not_duality_nojump envPlain rfl 2 .constantPat (.constant 5) true
    ⟨[(.constantPat, [.constant 5])], [.constantPat], true⟩ (by decide)
  simpa using h

/-- C3 (evaluation at the failing input): with autojump enabled and
`var2val = (v ↦ Constant)`, matching `VarPattern("")` against the variable
`v` returns false: the dispatcher's `TryGetValOfVar` (line 582) has
already replaced `v` by its bound constant before the Var handler (which
itself does not jump) judges it.  Without autojump the same match judges
the variable itself and returns true. -/
theorem var_pattern_autojump_eval :
    dfMatch envJumpConst 5 (.varPat "") (.var "v") = .ok false MState.init ∧
    dfMatch envPlain 5 (.varPat "") (.var "v") =
      .ok true ⟨[(.varPat "", [.var "v"])], [.varPat ""], true⟩ := by
  exact ⟨by decide, by decide⟩

/-- C1 (evaluation at the failing input): a successful `Match` of a
Dominator pattern (child = Tuple, path = Wildcard, parent = Constant)
against the scenario graph returns true with five entries on
`matched_nodes_` but only four memo keys, the path pattern's entry
holding two expressions: `matched_nodes.len() == memo.len()` fails, as
does "every memoized pattern has exactly one expression". -/
theorem dominator_invariant_violation :
    (dfMatch envDom 20 domPattern domExprRoot).boolOut = some true ∧
    (dfMatch envDom 20 domPattern domExprRoot).matchedLen = 5 ∧
    (dfMatch envDom 20 domPattern domExprRoot).memoKeys = 4 ∧
    (dfMatch envDom 20 domPattern domExprRoot).memoEntrySizes = [1, 2, 1, 1] := by
  exact ⟨by decide, by decide, by decide, by decide⟩

theorem shapeEqual_ext {env env2 : Env} (hpe : env2.primEqOne = env.primEqOne) :
    ∀ a b : List PrimExpr, shapeEqual env2 a b = shapeEqual env a b := by
  intro a
  induction a with
  | nil => intro b; cases b <;> rfl
  | cons x xs ih =>
    intro b
    cases b with
    | nil => rfl
    | cons y ys =>
      rw [show shapeEqual env2 (x :: xs) (y :: ys) =
            (env2.primEqOne x y && shapeEqual env2 xs ys) from rfl,
          show shapeEqual env (x :: xs) (y :: ys) =
            (env.primEqOne x y && shapeEqual env xs ys) from rfl,
          hpe, ih]

/-- C10: with autojump enabled and a `var2val` mapping defined, visiting a
variable expression with no entry in the map neither fails nor aborts: the
auto-jump step returns the variable unchanged, and the whole match
proceeds exactly as in a matcher with autojump disabled (stated for the
matcher built on the variable's own one-node expression graph). -/
theorem autojump_unmapped_var_transparent (env env2 : Env) (m : List (Expr × Expr)) (v : String)
    (haj : env.autojump = true) (hm : env.var2val = some m)
    (hfind : v2vFind m (.var v) = none)
    (hgr : graphFind env.graph (.var v) = some ⟨[], []⟩)
    (h2aj : env2.autojump = false) (h2g : env2.graph = env.graph)
    (h2sh : env2.shapeOf = env.shapeOf) (h2ct : env2.checkedTypeOf = env.checkedTypeOf)
    (h2at : env2.attrsOk = env.attrsOk) (h2pe : env2.primEqOne = env.primEqOne) :
    tryGetValOfVar env (.var v) = .ok (.var v) ∧
    ∀ f p s, run env f (.visit p (.var v)) s = run env2 f (.visit p (.var v)) s := by
  have hjump : tryGetValOfVar env (.var v) = .ok (.var v) := by
    simp [tryGetValOfVar, haj, hm, hfind, isVarNode]
  have hjump2 : ∀ e : Expr, tryGetValOfVar env2 e = .ok e := tryGetValOfVar_nojump h2aj
  have hse := shapeEqual_ext h2pe
  suffices H : ∀ f,
      (∀ p s, run env f (.visit p (.var v)) s = run env2 f (.visit p (.var v)) s) ∧
      (∀ pth par s, run env f (.pathOf pth par (.var v)) s =
        run env2 f (.pathOf pth par (.var v)) s) ∧
      (∀ pth par skip s, run env f (.pathInputs pth par skip []) s =
        run env2 f (.pathInputs pth par skip []) s) ∧
      (∀ par stack visited s, (∀ x ∈ stack, x = Expr.var v) →
        run env f (.domStack par stack visited) s =
          run env2 f (.domStack par stack visited) s) ∧
      (∀ par stack visited s, (∀ x ∈ stack, x = Expr.var v) →
        run env f (.domKids par [] stack visited) s =
          run env2 f (.domKids par [] stack visited) s) by
    exact ⟨hjump, fun f p s => (H f).1 p s⟩
  intro f
  induction f with
  | zero =>
    exact ⟨fun _ _ => rfl, fun _ _ _ => rfl, fun _ _ _ _ => rfl,
      fun _ _ _ _ _ => rfl, fun _ _ _ _ _ => rfl⟩
  | succ f ih =>
    obtain ⟨ihv, ihp, ihpi, ihds, ihdk⟩ := ih
    refine ⟨?_, ?_, ?_, ?_, ?_⟩
    · intro p s
      have ihds1 : ∀ par s2, run env f (.domStack par [Expr.var v] []) s2 =
          run env2 f (.domStack par [Expr.var v] []) s2 :=
        fun par s2 => ihds par [Expr.var v] [] s2 (by simp)
      simp only [run, hjump, hjump2]
      cases p <;>
        simp only [hjump, hjump2, h2sh, h2ct, h2at, h2g, hse, ihv, ihp, ihpi, ihds1, ihdk]
    · intro pth par s
      simp only [run, h2g, hgr]
      exact ihpi pth par none s
    · intro pth par skip s
      rfl
    · intro par stack visited s hstack
      cases stack with
      | nil => rfl
      | cons cur rest =>
        have hcur : cur = Expr.var v := hstack cur (by simp)
        subst hcur
        simp only [run, h2g, hgr]
        exact ihdk par rest visited s (fun x hx => hstack x (by simp [hx]))
    · intro par stack visited s hstack
      simp only [run]
      exact ihds par stack visited s hstack

theorem memoFind_cons_ne {k : Pattern} {l : List Expr} {rest : List (Pattern × List Expr)}
    {p : Pattern} (h : ¬k = p) : memoFind ((k, l) :: rest) p = memoFind rest p := by
  simp [memoFind, h]

theorem memoErase_of_no_key {m : List (Pattern × List Expr)} {p : Pattern}
    (h : memoFind m p = none) : memoErase m p = m := by
  induction m with
  | nil => rfl
  | cons kv rest ih =>
    by_cases hk : kv.1 = p
    · rw [show memoFind (kv :: rest) p = some kv.2 from by simp [memoFind, hk]] at h
      cases h
    · rw [memoFind_cons_ne hk] at h
      simp [memoErase, hk, ih h]

theorem memoErase_memoAdd {m : List (Pattern × List Expr)} {p : Pattern} {e : Expr}
    (h : memoFind m p = none) : memoErase (memoAdd m p e) p = m := by
  induction m with
  | nil => simp [memoAdd, memoErase]
  | cons kv rest ih =>
    by_cases hk : kv.1 = p
    · rw [show memoFind (kv :: rest) p = some kv.2 from by simp [memoFind, hk]] at h
      cases h
    · rw [memoFind_cons_ne hk] at h
      simp [memoAdd, memoErase, hk, ih h]

/-- Rolling back to the pre-push watermark undoes a single push. -/
theorem clearMap_push (F : MState) (p : Pattern) (e : Expr)
    (hp : memoFind F.memo p = none) :
    clearMap F.matched.length (pushMatch p e F) = F := by
  simp [clearMap, pushMatch, List.take_left, List.drop_left, memoErase_memoAdd hp]

/-- Atomic (leaf) pattern handlers evaluate purely: one visit returns the
leaf value and pushes on success, rolls back (a no-op) on failure. -/
theorem leaf_eval_run (env : Env) (haj : env.autojump = false) (f : Nat) (p : Pattern)
    (e : Expr) (s : MState) (hat : isAtomicPat p = true)
    (hnm : memoFind s.memo p = none) :
    run env (f+1) (.visit p e) s =
      .ok (leafEval env p e) (if leafEval env p e then pushMatch p e s else s) := by
  cases p <;> simp only [isAtomicPat] at hat <;>
    · simp only [run, tryGetValOfVar_nojump haj, hnm, Option.isSome_none, Bool.and_false,
        Bool.false_eq_true, if_false]
      cases e <;>
        simp only [Res.andThen, leafEval] <;>
        first
          | rfl
          | (split <;> rename_i hb <;> simp_all [leafEval, clearMap_full])

theorem leaf_run_det (env : Env) (haj : env.autojump = false) (p : Pattern) (e : Expr)
    (s : MState) (hat : isAtomicPat p = true) (hnm : memoFind s.memo p = none) :
    ∀ f b s', run env f (.visit p e) s = .ok b s' →
      b = leafEval env p e ∧
      s' = (if leafEval env p e then pushMatch p e s else s) := by
  intro f b s' h
  cases f with
  | zero => exact Res.noConfusion h
  | succ f =>
    rw [leaf_eval_run env haj f p e s hat hnm] at h
    injection h with h1 h2
    exact ⟨h1.symm, h2.symm⟩

theorem argsLoop_pair_run (env : Env) (haj : env.autojump = false)
    (x y : Pattern) (u w : Expr) (F : MState) (g : Nat)
    (hax : isAtomicPat x = true) (hay : isAtomicPat y = true)
    (hnx : memoFind F.memo x = none)
    (hny : memoFind (pushMatch x u F).memo y = none) :
    run env (g+1+1+1) (.argsLoop [x, y] [u, w]) F =
      .ok (leafEval env x u && leafEval env y w)
        (if leafEval env x u then
          (if leafEval env y w then pushMatch y w (pushMatch x u F) else pushMatch x u F)
        else F) := by
  rw [show run env (g+1+1+1) (.argsLoop [x, y] [u, w]) F =
        (run env (g+1+1) (.visit x u) F).andThen
          (fun b s1 => if b then run env (g+1+1) (.argsLoop [y] [w]) s1 else .ok false s1)
      from rfl]
  rw [leaf_eval_run env haj (g+1) x u F hax hnx]
  cases hlx : leafEval env x u with
  | false => simp [Res.andThen, hlx]
  | true =>
    simp only [Res.andThen, hlx, if_true]
    rw [show run env (g+1+1) (.argsLoop [y] [w]) (pushMatch x u F) =
          (run env (g+1) (.visit y w) (pushMatch x u F)).andThen
            (fun b s1 => if b then run env (g+1) (.argsLoop [] []) s1 else .ok false s1)
        from rfl]
    rw [leaf_eval_run env haj g y w (pushMatch x u F) hay hny]
    cases hly : leafEval env y w with
    | false => simp [Res.andThen, hly]
    | true =>
      simp only [Res.andThen, hly, if_true]
      rw [show run env (g+1) (.argsLoop [] []) (pushMatch y w (pushMatch x u F)) =
            .ok true (pushMatch y w (pushMatch x u F)) from rfl]
      simp

theorem argsLoop_pair_det (env : Env) (haj : env.autojump = false)
    (x y : Pattern) (u w : Expr) (F : MState)
    (hax : isAtomicPat x = true) (hay : isAtomicPat y = true)
    (hnx : memoFind F.memo x = none)
    (hny : memoFind (pushMatch x u F).memo y = none) :
    ∀ g b s', run env g (.argsLoop [x, y] [u, w]) F = .ok b s' →
      b = (leafEval env x u && leafEval env y w) ∧
      s' = (if leafEval env x u then
              (if leafEval env y w then pushMatch y w (pushMatch x u F) else pushMatch x u F)
            else F) := by
  intro g b s' h
  cases g with
  | zero => exact Res.noConfusion h
  | succ g =>
    rw [show run env (g+1) (.argsLoop [x, y] [u, w]) F =
          (run env g (.visit x u) F).andThen
            (fun b s1 => if b then run env g (.argsLoop [y] [w]) s1 else .ok false s1)
        from rfl] at h
    cases hv1 : run env g (.visit x u) F with
    | fuelOut => rw [hv1] at h; exact Res.noConfusion h
    | fatal er => rw [hv1] at h; exact Res.noConfusion h
    | ok b1 t1 =>
      obtain ⟨hb1, ht1⟩ := leaf_run_det env haj x u F hax hnx g b1 t1 hv1
      rw [hv1] at h
      simp only [Res.andThen] at h
      subst hb1
      subst ht1
      cases hlx : leafEval env x u with
      | false =>
        rw [hlx] at h
        simp only [Bool.false_eq_true, if_false] at h
        injection h with h1 h2
        simp [hlx, ← h1, ← h2]
      | true =>
        rw [hlx] at h
        simp only [if_true] at h
        cases g with
        | zero => exact Res.noConfusion h
        | succ g =>
          rw [show run env (g+1) (.argsLoop [y] [w]) (pushMatch x u F) =
                (run env g (.visit y w) (pushMatch x u F)).andThen
                  (fun b s1 => if b then run env g (.argsLoop [] []) s1 else .ok false s1)
              from rfl] at h
          cases hv2 : run env g (.visit y w) (pushMatch x u F) with
          | fuelOut => rw [hv2] at h; exact Res.noConfusion h
          | fatal er => rw [hv2] at h; exact Res.noConfusion h
          | ok b2 t2 =>
            obtain ⟨hb2, ht2⟩ := leaf_run_det env haj y w (pushMatch x u F) hay hny g b2 t2 hv2
            rw [hv2] at h
            simp only [Res.andThen] at h
            subst hb2
            subst ht2
            cases hly : leafEval env y w with
            | false =>
              rw [hly] at h
              simp only [Bool.false_eq_true, if_false] at h
              injection h with h1 h2
              simp [hlx, hly, ← h1, ← h2]
            | true =>
              rw [hly] at h
              simp only [if_true] at h
              cases g with
              | zero => exact Res.noConfusion h
              | succ g =>
                rw [show run env (g+1) (.argsLoop [] [])
                      (pushMatch y w (pushMatch x u F)) =
                      .ok true (pushMatch y w (pushMatch x u F)) from rfl] at h
                injection h with h1 h2
                simp [hlx, hly, ← h1, ← h2]

theorem memoFind_init (p : Pattern) : memoFind MState.init.memo p = none := rfl

/-- After the op sub-pattern of a commutative call has been matched, any
distinct argument pattern is still absent from the memo. -/
theorem memoS1_none (nm : String) (q : Pattern) (hq : q ≠ .exprPat (.opNode nm)) :
    memoFind (pushMatch (.exprPat (.opNode nm)) (.opNode nm) MState.init).memo q = none := by
  rw [show (pushMatch (Pattern.exprPat (Expr.opNode nm)) (Expr.opNode nm) MState.init).memo
        = [(Pattern.exprPat (Expr.opNode nm), [Expr.opNode nm])] from rfl,
      memoFind_cons_ne (fun hh => hq hh.symm)]
  rfl

/-- The same after one further (distinct) argument pattern has matched. -/
theorem memoS2_none (nm : String) (p q : Pattern) (e : Expr) (hpq : q ≠ p)
    (hq : q ≠ .exprPat (.opNode nm)) :
    memoFind (pushMatch p e
      (pushMatch (.exprPat (.opNode nm)) (.opNode nm) MState.init)).memo q = none := by
  rw [show (pushMatch p e
        (pushMatch (Pattern.exprPat (Expr.opNode nm)) (Expr.opNode nm) MState.init)).memo
        = memoAdd (pushMatch (Pattern.exprPat (Expr.opNode nm)) (Expr.opNode nm)
            MState.init).memo p e from rfl,
      memoFind_memoAdd_other _ p q e hpq]
  exact memoS1_none nm q hq

/-- For an atomic (leaf) pattern, returning true at some fuel from the
cleared state is exactly the pure leaf evaluation. -/
theorem atomic_returnsB (env : Env) (haj : env.autojump = false) (p : Pattern) (e : Expr)
    (hat : isAtomicPat p = true) :
    ReturnsB env p e true ↔ leafEval env p e = true := by
  constructor
  · rintro ⟨f, s, h⟩
    exact ((leaf_run_det env haj p e MState.init hat rfl f true s h).1).symm
  · intro hl
    refine ⟨1, pushMatch p e MState.init, ?_⟩
    show run env (0+1) (.visit p e) MState.init = _
    rw [leaf_eval_run env haj 0 p e MState.init hat rfl, hl, if_pos rfl]

/-- Determinism of the commutative-call visit (distinct atomic operand
patterns): any returned boolean equals the pairwise-or-swapped leaf
evaluation. -/
theorem call_comm_det (env : Env) (haj : env.autojump = false) (nm : String)
    (hguard : (nm == "add" || nm == "multiply") = true)
    (pa pb : Pattern) (ea eb : Expr)
    (hax : isAtomicPat pa = true) (hbx : isAtomicPat pb = true)
    (hne : pa ≠ pb) (hnea : pa ≠ .exprPat (.opNode nm)) (hneb : pb ≠ .exprPat (.opNode nm)) :
    ∀ f b s', run env f
        (.visit (.callPat (.exprPat (.opNode nm)) (some [pa, pb]))
          (.call (.opNode nm) [ea, eb])) MState.init = .ok b s' →
      b = ((leafEval env pa ea && leafEval env pb eb) ||
           (leafEval env pb ea && leafEval env pa eb)) := by
  have hopn : opPatName (Pattern.exprPat (Expr.opNode nm)) = some nm := rfl
  have hrev : reverseArgs (some [pa, pb]) = some [pb, pa] := rfl
  have hn1 := memoS1_none nm pa hnea
  have hn1b := memoS1_none nm pb hneb
  have hn2 := memoS2_none nm pa pb ea (Ne.symm hne) hneb
  have hn2b := memoS2_none nm pb pa ea hne hnea
  intro f b s' h
  cases f with
  | zero => exact Res.noConfusion h
  | succ f =>
    simp only [run, tryGetValOfVar_nojump haj, memoFind_init, Option.isSome_none,
      Bool.and_false, Bool.false_eq_true, if_false, hopn, hguard, hrev, if_true] at h
    cases hv1 : run env f (.visit (Pattern.exprPat (Expr.opNode nm)) (Expr.opNode nm))
        MState.init with
    | fuelOut => rw [hv1] at h; simp only [Res.andThen] at h; exact Res.noConfusion h
    | fatal er => rw [hv1] at h; simp only [Res.andThen] at h; exact Res.noConfusion h
    | ok bOp s1 =>
      obtain ⟨hb1, hs1⟩ := leaf_run_det env haj (Pattern.exprPat (Expr.opNode nm))
        (Expr.opNode nm) MState.init rfl rfl f bOp s1 hv1
      have hbT : bOp = true := by rw [hb1]; simp [leafEval]
      have hsT : s1 = pushMatch (Pattern.exprPat (Expr.opNode nm)) (Expr.opNode nm)
          MState.init := by
        rw [hs1]; simp [leafEval]
      subst hbT
      subst hsT
      rw [hv1] at h
      simp only [Res.andThen, if_true] at h
      rw [if_pos (show ([pa, pb] : List Pattern).length
        = ([ea, eb] : List Expr).length from rfl)] at h
      cases ha1 : run env f (.argsLoop [pa, pb] [ea, eb])
          (pushMatch (Pattern.exprPat (Expr.opNode nm)) (Expr.opNode nm) MState.init) with
      | fuelOut => rw [ha1] at h; simp only [Res.andThen] at h; exact Res.noConfusion h
      | fatal er => rw [ha1] at h; simp only [Res.andThen] at h; exact Res.noConfusion h
      | ok bb st2 =>
        obtain ⟨hbb, hst2⟩ := argsLoop_pair_det env haj pa pb ea eb _ hax hbx hn1 hn2
          f bb st2 ha1
        subst hbb
        subst hst2
        rw [ha1] at h
        simp only [Res.andThen] at h
        cases hD1 : leafEval env pa ea && leafEval env pb eb with
        | true =>
          rw [hD1] at h
          simp only [if_true, Res.andThen] at h
          injection h with h1 h2
          rw [← h1]
          rfl
        | false =>
          rw [hD1] at h
          simp only [Bool.false_eq_true, if_false, Res.andThen] at h
          have hclear : clearMap (pushMatch (Pattern.exprPat (Expr.opNode nm))
              (Expr.opNode nm) MState.init).matched.length
              (if leafEval env pa ea = true then
                (if leafEval env pb eb = true then
                  pushMatch pb eb (pushMatch pa ea (pushMatch (Pattern.exprPat (Expr.opNode nm))
                    (Expr.opNode nm) MState.init))
                 else pushMatch pa ea (pushMatch (Pattern.exprPat (Expr.opNode nm))
                    (Expr.opNode nm) MState.init))
               else pushMatch (Pattern.exprPat (Expr.opNode nm)) (Expr.opNode nm) MState.init)
              = pushMatch (Pattern.exprPat (Expr.opNode nm)) (Expr.opNode nm) MState.init := by
            cases hla : leafEval env pa ea with
            | false =>
              simp only [hla, Bool.false_eq_true, if_false]
              exact clearMap_full _
            | true =>
              have hlb : leafEval env pb eb = false := by
                rw [hla] at hD1; simpa using hD1
              simp only [hla, hlb, if_true, Bool.false_eq_true, if_false]
              exact clearMap_push _ pa ea hn1
          rw [hclear] at h
          rw [if_pos (show ([pb, pa] : List Pattern).length
            = ([ea, eb] : List Expr).length from rfl)] at h
          cases ha2 : run env f (.argsLoop [pb, pa] [ea, eb])
              (pushMatch (Pattern.exprPat (Expr.opNode nm)) (Expr.opNode nm) MState.init) with
          | fuelOut => rw [ha2] at h; simp only [Res.andThen] at h; exact Res.noConfusion h
          | fatal er => rw [ha2] at h; simp only [Res.andThen] at h; exact Res.noConfusion h
          | ok bb2 st3 =>
            obtain ⟨hbb2, hst3⟩ := argsLoop_pair_det env haj pb pa ea eb _ hbx hax hn1b hn2b
              f bb2 st3 ha2
            subst hbb2
            subst hst3
            rw [ha2] at h
            simp only [Res.andThen] at h
            cases hD2 : leafEval env pb ea && leafEval env pa eb with
            | true =>
              rw [hD2] at h
              simp only [if_true, Res.andThen] at h
              injection h with h1 h2
              rw [← h1]
              rfl
            | false =>
              rw [hD2] at h
              simp only [Bool.false_eq_true, if_false, Res.andThen] at h
              injection h with h1 h2
              rw [← h1]
              rfl

/-- At sufficient fuel the commutative-call visit (distinct atomic operand
patterns) returns exactly the pairwise-or-swapped leaf evaluation. -/
theorem call_comm_run (env : Env) (haj : env.autojump = false) (nm : String)
    (hguard : (nm == "add" || nm == "multiply") = true)
    (pa pb : Pattern) (ea eb : Expr)
    (hax : isAtomicPat pa = true) (hbx : isAtomicPat pb = true)
    (hne : pa ≠ pb) (hnea : pa ≠ .exprPat (.opNode nm)) (hneb : pb ≠ .exprPat (.opNode nm))
    (f g : Nat) (hf : f = g+1+1+1) :
    ∃ s', run env (f+1)
        (.visit (.callPat (.exprPat (.opNode nm)) (some [pa, pb]))
          (.call (.opNode nm) [ea, eb])) MState.init =
      .ok ((leafEval env pa ea && leafEval env pb eb) ||
           (leafEval env pb ea && leafEval env pa eb)) s' := by
  have hopn : opPatName (Pattern.exprPat (Expr.opNode nm)) = some nm := rfl
  have hrev : reverseArgs (some [pa, pb]) = some [pb, pa] := rfl
  have hn1 := memoS1_none nm pa hnea
  have hn1b := memoS1_none nm pb hneb
  have hn2 := memoS2_none nm pa pb ea (Ne.symm hne) hneb
  have hn2b := memoS2_none nm pb pa ea hne hnea
  simp only [run, tryGetValOfVar_nojump haj, memoFind_init, Option.isSome_none,
    Bool.and_false, Bool.false_eq_true, if_false, hopn, hguard, hrev, if_true]
  subst hf
  rw [leaf_eval_run env haj (g+1+1) (Pattern.exprPat (Expr.opNode nm)) (Expr.opNode nm)
    MState.init rfl rfl]
  have hopl : leafEval env (.exprPat (.opNode nm)) (.opNode nm) = true := by simp [leafEval]
  simp only [hopl, if_true, Res.andThen]
  rw [if_pos (show ([pa, pb] : List Pattern).length = ([ea, eb] : List Expr).length from rfl)]
  rw [argsLoop_pair_run env haj pa pb ea eb
    (pushMatch (Pattern.exprPat (Expr.opNode nm)) (Expr.opNode nm) MState.init) g hax hbx hn1 hn2]
  cases hla : leafEval env pa ea with
  | true =>
    cases hlb : leafEval env pb eb with
    | true => exact ⟨_, by simp [Res.andThen]; rfl⟩
    | false =>
      simp only [Bool.and_false, Bool.false_eq_true, if_false, if_true, Res.andThen,
        Bool.false_or]
      rw [clearMap_push (pushMatch (Pattern.exprPat (Expr.opNode nm)) (Expr.opNode nm)
        MState.init) pa ea hn1]
      rw [if_pos (show ([pb, pa] : List Pattern).length = ([ea, eb] : List Expr).length from rfl)]
      rw [argsLoop_pair_run env haj pb pa ea eb
        (pushMatch (Pattern.exprPat (Expr.opNode nm)) (Expr.opNode nm) MState.init) g
        hbx hax hn1b hn2b]
      cases hlc : leafEval env pb ea <;> cases hld : leafEval env pa eb <;>
        exact ⟨_, by simp [Res.andThen]; rfl⟩
  | false =>
    simp only [Bool.false_and, Bool.false_eq_true, if_false, if_true, Res.andThen,
      Bool.false_or]
    rw [clearMap_full (pushMatch (Pattern.exprPat (Expr.opNode nm)) (Expr.opNode nm)
      MState.init)]
    rw [if_pos (show ([pb, pa] : List Pattern).length = ([ea, eb] : List Expr).length from rfl)]
    rw [argsLoop_pair_run env haj pb pa ea eb
      (pushMatch (Pattern.exprPat (Expr.opNode nm)) (Expr.opNode nm) MState.init) g
      hbx hax hn1b hn2b]
    cases hlc : leafEval env pb ea <;> cases hld : leafEval env pa eb <;>
        exact ⟨_, by simp [Res.andThen]; rfl⟩

/-- C5 (counterexample to the claim as stated): with the two operand
patterns aliased (both `VarPattern("")`), each operand pattern matches each
operand of `add(u, v)` on its own — so the pairwise match holds in both
orders — yet the combined call match never returns true at any fuel: the
memoized answer for the shared pattern (bound to `u` by the first operand)
makes the second operand comparison `v == u` fail, in both argument
orders. -/
theorem commutative_call_counterexample :
    ReturnsB envPlain (.varPat "") (.var "u") true ∧
    ReturnsB envPlain (.varPat "") (.var "v") true ∧
    (∀ f b s', dfMatch envPlain f
        (.callPat (.exprPat (.opNode "add")) (some [.varPat "", .varPat ""]))
        (.call (.opNode "add") [.var "u", .var "v"]) = .ok b s' → b = false) ∧
    dfMatch envPlain 4
        (.callPat (.exprPat (.opNode "add")) (some [.varPat "", .varPat ""]))
        (.call (.opNode "add") [.var "u", .var "v"]) = .ok false MState.init := by
  refine ⟨⟨1, _, rfl⟩, ⟨1, _, rfl⟩, ?_, by decide⟩
  intro f b s' h
  cases f with
  | zero => exact Res.noConfusion (show Res.fuelOut = Res.ok b s' from h)
  | succ f => cases f with
    | zero => exact Res.noConfusion (show Res.fuelOut = Res.ok b s' from h)
    | succ f => cases f with
      | zero => exact Res.noConfusion (show Res.fuelOut = Res.ok b s' from h)
      | succ f => cases f with
        | zero => exact Res.noConfusion (show Res.fuelOut = Res.ok b s' from h)
        | succ f =>
          have h4 : Res.ok false MState.init = Res.ok b s' := h
          injection h4 with h1 h2
          exact h1.symm

/-- C5 (amended): for `op` in \x7badd, multiply\x7d and autojump disabled,
matching `Call(ExprPattern(op), [pa, pb])` against `op(ea, eb)` succeeds
for some fuel if and only if the operand patterns match pairwise in some
order — provided the two operand patterns are atomic (non-recursive)
patterns, distinct from each other and from the op pattern, so that the
memoization of shared sub-patterns does not couple the two argument
positions. -/
theorem commutative_call_iff (env : Env) (haj : env.autojump = false)
    (nm : String) (hop : nm = "add" ∨ nm = "multiply")
    (pa pb : Pattern) (ea eb : Expr)
    (hax : isAtomicPat pa = true) (hbx : isAtomicPat pb = true)
    (hne : pa ≠ pb)
    (hnea : pa ≠ .exprPat (.opNode nm)) (hneb : pb ≠ .exprPat (.opNode nm)) :
    ReturnsB env (.callPat (.exprPat (.opNode nm)) (some [pa, pb]))
        (.call (.opNode nm) [ea, eb]) true ↔
      ((ReturnsB env pa ea true ∧ ReturnsB env pb eb true) ∨
       (ReturnsB env pa eb true ∧ ReturnsB env pb ea true)) := by
  have hguard : (nm == "add" || nm == "multiply") = true := by
    rcases hop with h | h <;> simp [h]
  rw [atomic_returnsB env haj pa ea hax, atomic_returnsB env haj pb eb hbx,
    atomic_returnsB env haj pa eb hax, atomic_returnsB env haj pb ea hbx]
  constructor
  · rintro ⟨f, s, h⟩
    have hb := call_comm_det env haj nm hguard pa pb ea eb hax hbx hne hnea hneb f true s h
    have hor := hb.symm
    rw [Bool.or_eq_true, Bool.and_eq_true, Bool.and_eq_true] at hor
    rcases hor with h1 | h2
    · exact Or.inl h1
    · exact Or.inr ⟨h2.2, h2.1⟩
  · intro hr
    have hD : ((leafEval env pa ea && leafEval env pb eb) ||
        (leafEval env pb ea && leafEval env pa eb)) = true := by
      rcases hr with ⟨h1, h2⟩ | ⟨h1, h2⟩ <;> simp [h1, h2]
    obtain ⟨s', hs'⟩ := call_comm_run env haj nm hguard pa pb ea eb hax hbx hne hnea hneb
      (0+1+1+1) 0 rfl
    refine ⟨0+1+1+1+1, s', ?_⟩
    show run env (0+1+1+1+1) _ MState.init = _
    rw [hs', hD]

/-- Witness for the amended C5: `add(VarPattern(""), Constant)` against
`add(u, 0)`. -/
theorem commutative_call_iff_witness :
    envPlain.autojump = false ∧
    ("add" = "add" ∨ "add" = "multiply") ∧
    isAtomicPat (.varPat "") = true ∧
    isAtomicPat .constantPat = true ∧
    (Pattern.varPat "" ≠ .constantPat) ∧
    (Pattern.varPat "" ≠ .exprPat (.opNode "add")) ∧
    (Pattern.constantPat ≠ .exprPat (.opNode "add")) ∧
    (ReturnsB envPlain (.callPat (.exprPat (.opNode "add")) (some [.varPat "", .constantPat]))
        (.call (.opNode "add") [.var "u", .constant 0]) true ↔
      ((ReturnsB envPlain (.varPat "") (.var "u") true ∧
        ReturnsB envPlain .constantPat (.constant 0) true) ∨
       (ReturnsB envPlain (.varPat "") (.constant 0) true ∧
        ReturnsB envPlain .constantPat (.var "u") true))) :=
  ⟨rfl, Or.inl rfl, rfl, rfl, by decide, by decide, by decide,
    commutative_call_iff envPlain rfl "add" (Or.inl rfl) (.varPat "") .constantPat
      (.var "u") (.constant 0) rfl rfl (by decide) (by decide) (by decide)⟩

/-- Witness for C10: the matcher with autojump and the empty map behaves
on the unmapped variable `v` exactly like its autojump-free twin. -/
theorem autojump_unmapped_var_transparent_witness :
    tryGetValOfVar envVarGraph (.var "v") = .ok (.var "v") ∧
    run envVarGraph 3 (.visit (.varPat "") (.var "v")) MState.init =
      run (⟨false, some [], [(.var "v", ⟨[], []⟩)], fun _ => .noShape,
        fun _ => .tyOther 0, fun _ _ => false, fun a b => a == b⟩ : Env) 3
        (.visit (.varPat "") (.var "v")) MState.init := by
  have H := autojump_unmapped_var_transparent envVarGraph
    (⟨false, some [], [(.var "v", ⟨[], []⟩)], fun _ => .noShape,
      fun _ => .tyOther 0, fun _ _ => false, fun a b => a == b⟩ : Env)
    [] "v" rfl rfl rfl rfl rfl rfl rfl rfl rfl rfl
  exact ⟨H.1, H.2 3 (.varPat "") MState.init⟩

end RelaxDF
